import Mathlib

/-!
Shallow embedding of the PKP trading-strategy engine
(`src/strategies/pkp/strategy.py`) and proofs of the specified properties.

Python floats are modelled as exact rationals (`ℚ`); Python ints as `ℤ`/`ℕ`.
`int(x)` on a float truncates toward zero (`pyInt`); `x // y` on floats is
`⌊x / y⌋`.  Fields and update order follow the source line by line; free-text
note strings and printing are omitted (display only).
-/

namespace PKP

/-- Calendar date, stands in for Python `datetime`; ordered lexicographically. -/
structure Date where
  y : ℕ
  m : ℕ
  d : ℕ
deriving DecidableEq, Repr

/-- Lexicographic strict order on dates, the order `datetime` comparisons use. -/
def Date.lt (a b : Date) : Prop :=
  a.y < b.y ∨ (a.y = b.y ∧ (a.m < b.m ∨ (a.m = b.m ∧ a.d < b.d)))

instance (a b : Date) : Decidable (a.lt b) := by
  unfold Date.lt; infer_instance

/-- Input record: one trading day, from the `data` rows fed to `run`. -/
structure Row where
  date : Date
  close : ℚ
deriving DecidableEq, Repr

/-- Constructor parameters of `PKPStrategy` that influence the simulation
(`ticker`, `verbose`, `show_notes` only affect labelling/printing). -/
structure Config where
  base_sip : ℚ
  min_profit_booking_amount : ℚ
  bid_multiplier : ℚ
  bid_trigger_drop : ℚ
  initial_lumpsum : ℚ
deriving DecidableEq, Repr

/-- Transaction type tag: `LUMPSUM`, `SIP`, `BID-kx`, `SELL`. -/
inductive TxType where
  | LUMPSUM : TxType
  | SIP : TxType
  | BID : ℕ → TxType
  | SELL : TxType
deriving DecidableEq, Repr

/-- Whether a transaction type is a dip-buy (`type.startswith('BID')`). -/
def TxType.isBid : TxType → Bool
  | .BID _ => true
  | _ => false

/-- Transaction record appended by `log_transaction` (the free-text `notes`
field is omitted; it is display-only). -/
structure Transaction where
  date : Date
  type : TxType
  units : ℤ
  price : ℚ
  amount : ℚ
  total_units : ℤ
  pap : ℚ
  bia : ℚ
  actual_invested : ℚ
  current_market_value : ℚ
  pnl_pct : ℚ
  profit_reserve : ℚ
deriving DecidableEq, Repr

/-- History record appended by `record_history`, one per processed day. -/
structure HistoryRecord where
  date : Date
  units : ℤ
  pap : ℚ
  price : ℚ
  portfolio_value : ℚ
  profit_reserve : ℚ
  total_equity : ℚ
  actual_invested : ℚ
deriving DecidableEq, Repr

/-- Mutable state of a `PKPStrategy` instance during `run`, plus the loop-local
`prev_month` variable of `run` (threaded through the fold). -/
structure PKPState where
  total_units : ℤ
  bia : ℚ
  pap : ℚ
  profit_reserve : ℚ
  actual_invested : ℚ
  current_bid_stage : ℕ
  bids_executed_count : ℕ
  current_sip_amount : ℚ
  initial_breakeven_date : Option Date
  monthly_profits : List ((ℕ × ℕ) × ℚ)
  has_invested : Bool
  max_actual_invested : ℚ
  max_actual_invested_date : Option Date
  benchmark_units : ℤ
  benchmark_invested : ℚ
  prev_month : Option ℕ
  transactions : List Transaction
  portfolio_history : List HistoryRecord
deriving DecidableEq, Repr

/-- Python `int(q)`: truncation toward zero. -/
def pyInt (q : ℚ) : ℤ :=
  if 0 ≤ q then ⌊q⌋ else -⌊-q⌋

/-- Initial state built by `PKPStrategy.__init__`. -/
def initState (cfg : Config) : PKPState where
  total_units := 0
  bia := 0
  pap := 0
  profit_reserve := 0
  actual_invested := 0
  current_bid_stage := 0
  bids_executed_count := 0
  current_sip_amount := cfg.base_sip
  initial_breakeven_date := none
  monthly_profits := []
  has_invested := false
  max_actual_invested := 0
  max_actual_invested_date := none
  benchmark_units := 0
  benchmark_invested := 0
  prev_month := none
  transactions := []
  portfolio_history := []

/-- PnL percentage computed inside `log_transaction`: guarded division,
`(mv - bia) / bia` when `bia > 0`, else `0`. -/
def pnl_pct_calc (bia mv : ℚ) : ℚ :=
  if 0 < bia then (mv - bia) / bia else 0

/-- Gain percentage computed at the SELL logging site (strategy.py line 271):
`(price - pap) / pap` when `pap > 0`, else `0`. -/
def gain_pct_calc (pap price : ℚ) : ℚ :=
  if 0 < pap then (price - pap) / pap else 0

/-- `log_transaction`: append one Transaction snapshot. -/
def log_transaction (s : PKPState) (date : Date) (type : TxType) (units : ℤ)
    (price amount actual_invested : ℚ) : PKPState :=
  let current_market_value := (s.total_units : ℚ) * price
  { s with transactions := s.transactions ++
      [{ date := date, type := type, units := units, price := price, amount := amount,
         total_units := s.total_units, pap := s.pap, bia := s.bia,
         actual_invested := actual_invested,
         current_market_value := current_market_value,
         pnl_pct := pnl_pct_calc s.bia current_market_value,
         profit_reserve := s.profit_reserve }] }

/-- High-water-mark tracking of `actual_invested` (the repeated
`if self.actual_invested > self.max_actual_invested` block). -/
def track_max (s : PKPState) (date : Date) : PKPState :=
  if s.max_actual_invested < s.actual_invested then
    { s with max_actual_invested := s.actual_invested,
             max_actual_invested_date := some date }
  else s

/-- Reserve-first funding block shared verbatim by the SIP and BID branches
(strategy.py lines 146-159 and 198-211). -/
def apply_funding (s : PKPState) (cost : ℚ) (date : Date) : PKPState :=
  let amount_from_reserve := min cost s.profit_reserve
  let s1 := { s with profit_reserve := s.profit_reserve - amount_from_reserve }
  let fresh_capital := cost - amount_from_reserve
  if 0 < fresh_capital then
    track_max { s1 with actual_invested := s1.actual_invested + fresh_capital,
                        has_invested := true } date
  else s1

/-- Shared `bia`/`total_units`/`pap` update on a buy
(`self.bia += cost; self.total_units += units; self.pap = self.bia / self.total_units`). -/
def apply_bia_pap (s : PKPState) (units : ℤ) (cost : ℚ) : PKPState :=
  let bia := s.bia + cost
  let total_units := s.total_units + units
  { s with bia := bia, total_units := total_units, pap := bia / (total_units : ℚ) }

/-- Initial-lumpsum branch (strategy.py lines 90-111); the `i == 0` test is done
by the caller `step`. -/
def lumpsum_exec (cfg : Config) (s : PKPState) (row : Row) : PKPState :=
  if 0 < cfg.initial_lumpsum then
    let units_to_buy := pyInt (cfg.initial_lumpsum / row.close)
    if 0 < units_to_buy then
      let cost := (units_to_buy : ℚ) * row.close
      let s1 := apply_bia_pap s units_to_buy cost
      let s2 := track_max { s1 with actual_invested := s1.actual_invested + cost,
                                    has_invested := true } row.date
      let s3 := { s2 with benchmark_invested := s2.benchmark_invested + cost,
                          benchmark_units := s2.benchmark_units + units_to_buy }
      log_transaction s3 row.date .LUMPSUM units_to_buy row.close cost s3.actual_invested
    else s
  else s

/-- Day classifier (strategy.py lines 117-120): contribution day iff a previous
month exists and differs from the current month. -/
def isSipDay (prev_month : Option ℕ) (current_month : ℕ) : Bool :=
  match prev_month with
  | some pm => pm != current_month
  | none => false

/-- SIP branch body (strategy.py lines 125-162): benchmark buy, then the PKP
contribution funded reserve-first. -/
def sip_exec (cfg : Config) (s : PKPState) (row : Row) : PKPState :=
  let bench_units := pyInt (cfg.base_sip / row.close)
  let s1 := if 0 < bench_units then
      { s with benchmark_invested := s.benchmark_invested + (bench_units : ℚ) * row.close,
               benchmark_units := s.benchmark_units + bench_units }
    else s
  let s2 := { s1 with current_sip_amount := cfg.base_sip }
  let units_to_buy := pyInt (s2.current_sip_amount / row.close)
  if 0 < units_to_buy then
    let cost := (units_to_buy : ℚ) * row.close
    let s3 := apply_bia_pap s2 units_to_buy cost
    let s4 := apply_funding s3 cost row.date
    log_transaction s4 row.date .SIP units_to_buy row.close cost s4.actual_invested
  else s2

/-- Staged dip-buy branch (strategy.py lines 169-221).  Returns `some s'` iff a
BID executed (in which case the Python loop `continue`s past the harvest rule). -/
def bid_exec (cfg : Config) (s : PKPState) (row : Row) : Option PKPState :=
  if 0 < s.total_units then
    let base_bid_amt_X := cfg.bid_multiplier * cfg.base_sip
    let drop_pct := (s.pap - row.close) / s.pap
    let bid_multiplier_factor : ℕ :=
      if s.current_bid_stage < 10 then
        if ((s.current_bid_stage + 1 : ℕ) : ℚ) * cfg.bid_trigger_drop ≤ drop_pct then
          s.current_bid_stage + 1
        else 0
      else 0
    if 0 < bid_multiplier_factor then
      let invest_amt := (bid_multiplier_factor : ℚ) * base_bid_amt_X
      let units_to_buy := pyInt (invest_amt / row.close)
      if 0 < units_to_buy then
        let cost := (units_to_buy : ℚ) * row.close
        let s1 := apply_bia_pap s units_to_buy cost
        let s2 := apply_funding s1 cost row.date
        let s3 := { s2 with bids_executed_count := s2.bids_executed_count + 1,
                            current_bid_stage := s2.current_bid_stage + 1 }
        some (log_transaction s3 row.date (.BID bid_multiplier_factor) units_to_buy
          row.close cost s3.actual_invested)
      else none
    else none
  else none

/-- Update of the monthly-profit dict:
`self.monthly_profits[ym] = self.monthly_profits.get(ym, 0) + sale_value`. -/
def add_monthly_profit : List ((ℕ × ℕ) × ℚ) → ℕ × ℕ → ℚ → List ((ℕ × ℕ) × ℚ)
  | [], k, v => [(k, v)]
  | (k', v') :: rest, k, v =>
    if k' = k then (k', v' + v) :: rest else (k', v') :: add_monthly_profit rest k v

/-- Profit-harvest branch (strategy.py lines 224-273).  `int((t + p - 1) // p)`
is `⌊(t + p - 1) / p⌋` (float floor-division, then truncation of an
integer-valued float). -/
def sell_exec (cfg : Config) (s : PKPState) (row : Row) : PKPState :=
  if 0 < s.total_units then
    let current_value := (s.total_units : ℚ) * row.close
    let profit_val := current_value - s.bia
    let target_threshold := max cfg.min_profit_booking_amount ((1 / 100 : ℚ) * current_value)
    if target_threshold ≤ profit_val then
      let units_calc0 := ⌊(target_threshold + row.close - 1) / row.close⌋
      let units_calc := if s.total_units < units_calc0 then s.total_units else units_calc0
      if 0 < units_calc then
        let sale_value := (units_calc : ℚ) * row.close
        let s1 := { s with total_units := s.total_units - units_calc }
        let s2 := { s1 with pap :=
          if 0 < s1.total_units then s1.bia / (s1.total_units : ℚ) else 0 }
        let invested_reduction := min sale_value s2.actual_invested
        let s3 := { s2 with actual_invested := s2.actual_invested - invested_reduction }
        let reserve_addition := sale_value - invested_reduction
        let s4 := { s3 with profit_reserve := s3.profit_reserve + reserve_addition }
        let s5 := { s4 with monthly_profits :=
          add_monthly_profit s4.monthly_profits (row.date.y, row.date.m) sale_value }
        let s6 := { s5 with current_bid_stage := 0 }
        log_transaction s6 row.date .SELL (-units_calc) row.close sale_value
          s6.actual_invested
      else s
    else s
  else s

/-- `record_history`: breakeven-date tracking, then append one HistoryRecord. -/
def record_history (s : PKPState) (date : Date) (current_price : ℚ) : PKPState :=
  let portfolio_value := (s.total_units : ℚ) * current_price
  let total_equity := portfolio_value + s.profit_reserve
  let s1 := if s.has_invested = true ∧ s.actual_invested ≤ 0 then
      { s with initial_breakeven_date :=
          match s.initial_breakeven_date with
          | none => some date
          | some d0 => some d0 }
    else s
  { s1 with portfolio_history := s1.portfolio_history ++
      [{ date := date, units := s1.total_units, pap := s1.pap, price := current_price,
         portfolio_value := portfolio_value, profit_reserve := s1.profit_reserve,
         total_equity := total_equity, actual_invested := s1.actual_invested }] }

/-- Non-contribution tail of the daily cascade: try the staged dip-buy, and if
it did not execute, try the profit harvest; either way record history. -/
def day_tail (cfg : Config) (s1 : PKPState) (row : Row) : PKPState :=
  match bid_exec cfg s1 row with
  | some s2 => record_history s2 row.date row.close
  | none => record_history (sell_exec cfg s1 row) row.date row.close

/-- Daily rule cascade after the lumpsum check (strategy.py lines 113-276):
day classification, `prev_month` update, then exactly one of the SIP, BID or
SELL branches followed by `record_history`. -/
def day_rules (cfg : Config) (s0 : PKPState) (row : Row) : PKPState :=
  let current_month := row.date.m
  let is_sip_day := isSipDay s0.prev_month current_month
  let s1 := { s0 with prev_month := some current_month }
  if is_sip_day then
    record_history (sip_exec cfg s1 row) row.date row.close
  else
    day_tail cfg s1 row

/-- One iteration of the `for i, row in enumerate(data)` loop of `run`. -/
def step (cfg : Config) (s : PKPState) (i : ℕ) (row : Row) : PKPState :=
  day_rules cfg (if i = 0 then lumpsum_exec cfg s row else s) row

/-- Tail of the `run` loop starting at index `i` in state `s`. -/
def runFrom (cfg : Config) : ℕ → PKPState → List Row → PKPState
  | _, s, [] => s
  | i, s, row :: rest => runFrom cfg (i + 1) (step cfg s i row) rest

/-- `PKPStrategy.run`: fold the daily step over the input, starting from the
freshly constructed state. -/
def run (cfg : Config) (data : List Row) : PKPState :=
  runFrom cfg 0 (initState cfg) data

/-- Backward scan of `generate_report`/`get_metrics`: date of the last history
record with `actual_invested > 1.0`. -/
def last_positive_date (hist : List HistoryRecord) : Option Date :=
  hist.foldl (fun acc r => if 1 < r.actual_invested then some r.date else acc) none

/-- Sustained-breakeven date as computed in `generate_report`
(strategy.py lines 322-340): `none` both before assignment and when
`last_positive_date` is `None`. -/
def sustained_breakeven_report (hist : List HistoryRecord) : Option Date :=
  match hist.getLast? with
  | none => none
  | some final_state =>
    match last_positive_date hist with
    | some lpd =>
      if lpd.lt final_state.date then
        match hist.find? (fun r => decide (lpd.lt r.date)) with
        | some r => some r.date
        | none => none
      else none
    | none => none

/-- Sustained-breakeven date as computed in `get_metrics`
(strategy.py lines 470-483); unlike `generate_report`, the `elif` branch
assigns the first record's date when the history starts non-positive. -/
def sustained_breakeven_metrics (hist : List HistoryRecord) : Option Date :=
  match hist.getLast? with
  | none => none
  | some final_state =>
    match last_positive_date hist with
    | some lpd =>
      if lpd.lt final_state.date then
        match hist.find? (fun r => decide (lpd.lt r.date)) with
        | some r => some r.date
        | none => none
      else none
    | none =>
      match hist.head? with
      | some h0 => if h0.actual_invested ≤ 0 then some h0.date else none
      | none => none

/-- The `break_even_date` metrics field: `none` models the "Not Reached"
sentinel string (strategy.py line 526). -/
def break_even_date_metric (s : PKPState) : Option Date :=
  if s.portfolio_history = [] then none
  else sustained_breakeven_metrics s.portfolio_history

end PKP

namespace PKP

/-! ### Characterization lemmas for the helper functions -/

theorem sub_min_eq_max (a b : ℚ) : a - min b a = max 0 (a - b) := by
  rcases le_total b a with h | h
  · rw [min_eq_left h, max_eq_right (by linarith)]
  · rw [min_eq_right h, max_eq_left (by linarith)]
    ring

theorem min_sub_self_eq_max (c r : ℚ) : c - min c r = max 0 (c - r) := by
  rcases le_total c r with h | h
  · rw [min_eq_left h, max_eq_left (by linarith)]
    ring
  · rw [min_eq_right h, max_eq_right (by linarith)]


section FieldLemmas

variable (cfg : Config) (s : PKPState) (row : Row) (dt : Date) (c : ℕ)
variable (ty : TxType) (u : ℤ) (p a ai cost : ℚ)

@[simp] theorem track_max_total_units : (track_max s dt).total_units = s.total_units := by
  unfold track_max; split <;> rfl

@[simp] theorem track_max_bia : (track_max s dt).bia = s.bia := by
  unfold track_max; split <;> rfl

@[simp] theorem track_max_pap : (track_max s dt).pap = s.pap := by
  unfold track_max; split <;> rfl

@[simp] theorem track_max_profit_reserve : (track_max s dt).profit_reserve = s.profit_reserve := by
  unfold track_max; split <;> rfl

@[simp] theorem track_max_actual_invested : (track_max s dt).actual_invested = s.actual_invested := by
  unfold track_max; split <;> rfl

@[simp] theorem track_max_current_bid_stage : (track_max s dt).current_bid_stage = s.current_bid_stage := by
  unfold track_max; split <;> rfl

@[simp] theorem track_max_bids_executed_count : (track_max s dt).bids_executed_count = s.bids_executed_count := by
  unfold track_max; split <;> rfl

@[simp] theorem track_max_current_sip_amount : (track_max s dt).current_sip_amount = s.current_sip_amount := by
  unfold track_max; split <;> rfl

@[simp] theorem track_max_initial_breakeven_date : (track_max s dt).initial_breakeven_date = s.initial_breakeven_date := by
  unfold track_max; split <;> rfl

@[simp] theorem track_max_monthly_profits : (track_max s dt).monthly_profits = s.monthly_profits := by
  unfold track_max; split <;> rfl

@[simp] theorem track_max_has_invested : (track_max s dt).has_invested = s.has_invested := by
  unfold track_max; split <;> rfl

@[simp] theorem track_max_benchmark_units : (track_max s dt).benchmark_units = s.benchmark_units := by
  unfold track_max; split <;> rfl

@[simp] theorem track_max_benchmark_invested : (track_max s dt).benchmark_invested = s.benchmark_invested := by
  unfold track_max; split <;> rfl

@[simp] theorem track_max_prev_month : (track_max s dt).prev_month = s.prev_month := by
  unfold track_max; split <;> rfl

@[simp] theorem track_max_transactions : (track_max s dt).transactions = s.transactions := by
  unfold track_max; split <;> rfl

@[simp] theorem track_max_portfolio_history : (track_max s dt).portfolio_history = s.portfolio_history := by
  unfold track_max; split <;> rfl

@[simp] theorem apply_funding_total_units : (apply_funding s cost dt).total_units = s.total_units := by
  unfold apply_funding track_max; dsimp only; split <;> first | rfl | (split <;> rfl)

@[simp] theorem apply_funding_bia : (apply_funding s cost dt).bia = s.bia := by
  unfold apply_funding track_max; dsimp only; split <;> first | rfl | (split <;> rfl)

@[simp] theorem apply_funding_pap : (apply_funding s cost dt).pap = s.pap := by
  unfold apply_funding track_max; dsimp only; split <;> first | rfl | (split <;> rfl)

@[simp] theorem apply_funding_current_bid_stage : (apply_funding s cost dt).current_bid_stage = s.current_bid_stage := by
  unfold apply_funding track_max; dsimp only; split <;> first | rfl | (split <;> rfl)

@[simp] theorem apply_funding_bids_executed_count : (apply_funding s cost dt).bids_executed_count = s.bids_executed_count := by
  unfold apply_funding track_max; dsimp only; split <;> first | rfl | (split <;> rfl)

@[simp] theorem apply_funding_current_sip_amount : (apply_funding s cost dt).current_sip_amount = s.current_sip_amount := by
  unfold apply_funding track_max; dsimp only; split <;> first | rfl | (split <;> rfl)

@[simp] theorem apply_funding_initial_breakeven_date : (apply_funding s cost dt).initial_breakeven_date = s.initial_breakeven_date := by
  unfold apply_funding track_max; dsimp only; split <;> first | rfl | (split <;> rfl)

@[simp] theorem apply_funding_monthly_profits : (apply_funding s cost dt).monthly_profits = s.monthly_profits := by
  unfold apply_funding track_max; dsimp only; split <;> first | rfl | (split <;> rfl)

@[simp] theorem apply_funding_benchmark_units : (apply_funding s cost dt).benchmark_units = s.benchmark_units := by
  unfold apply_funding track_max; dsimp only; split <;> first | rfl | (split <;> rfl)

@[simp] theorem apply_funding_benchmark_invested : (apply_funding s cost dt).benchmark_invested = s.benchmark_invested := by
  unfold apply_funding track_max; dsimp only; split <;> first | rfl | (split <;> rfl)

@[simp] theorem apply_funding_prev_month : (apply_funding s cost dt).prev_month = s.prev_month := by
  unfold apply_funding track_max; dsimp only; split <;> first | rfl | (split <;> rfl)

@[simp] theorem apply_funding_transactions : (apply_funding s cost dt).transactions = s.transactions := by
  unfold apply_funding track_max; dsimp only; split <;> first | rfl | (split <;> rfl)

@[simp] theorem apply_funding_portfolio_history : (apply_funding s cost dt).portfolio_history = s.portfolio_history := by
  unfold apply_funding track_max; dsimp only; split <;> first | rfl | (split <;> rfl)

@[simp] theorem log_transaction_total_units : (log_transaction s dt ty u p a ai).total_units = s.total_units := by
  rfl

@[simp] theorem log_transaction_bia : (log_transaction s dt ty u p a ai).bia = s.bia := by
  rfl

@[simp] theorem log_transaction_pap : (log_transaction s dt ty u p a ai).pap = s.pap := by
  rfl

@[simp] theorem log_transaction_profit_reserve : (log_transaction s dt ty u p a ai).profit_reserve = s.profit_reserve := by
  rfl

@[simp] theorem log_transaction_actual_invested : (log_transaction s dt ty u p a ai).actual_invested = s.actual_invested := by
  rfl

@[simp] theorem log_transaction_current_bid_stage : (log_transaction s dt ty u p a ai).current_bid_stage = s.current_bid_stage := by
  rfl

@[simp] theorem log_transaction_bids_executed_count : (log_transaction s dt ty u p a ai).bids_executed_count = s.bids_executed_count := by
  rfl

@[simp] theorem log_transaction_current_sip_amount : (log_transaction s dt ty u p a ai).current_sip_amount = s.current_sip_amount := by
  rfl

@[simp] theorem log_transaction_initial_breakeven_date : (log_transaction s dt ty u p a ai).initial_breakeven_date = s.initial_breakeven_date := by
  rfl

@[simp] theorem log_transaction_monthly_profits : (log_transaction s dt ty u p a ai).monthly_profits = s.monthly_profits := by
  rfl

@[simp] theorem log_transaction_has_invested : (log_transaction s dt ty u p a ai).has_invested = s.has_invested := by
  rfl

@[simp] theorem log_transaction_max_actual_invested : (log_transaction s dt ty u p a ai).max_actual_invested = s.max_actual_invested := by
  rfl

@[simp] theorem log_transaction_max_actual_invested_date : (log_transaction s dt ty u p a ai).max_actual_invested_date = s.max_actual_invested_date := by
  rfl

@[simp] theorem log_transaction_benchmark_units : (log_transaction s dt ty u p a ai).benchmark_units = s.benchmark_units := by
  rfl

@[simp] theorem log_transaction_benchmark_invested : (log_transaction s dt ty u p a ai).benchmark_invested = s.benchmark_invested := by
  rfl

@[simp] theorem log_transaction_prev_month : (log_transaction s dt ty u p a ai).prev_month = s.prev_month := by
  rfl

@[simp] theorem log_transaction_portfolio_history : (log_transaction s dt ty u p a ai).portfolio_history = s.portfolio_history := by
  rfl

@[simp] theorem apply_bia_pap_profit_reserve : (apply_bia_pap s u cost).profit_reserve = s.profit_reserve := by
  rfl

@[simp] theorem apply_bia_pap_actual_invested : (apply_bia_pap s u cost).actual_invested = s.actual_invested := by
  rfl

@[simp] theorem apply_bia_pap_current_bid_stage : (apply_bia_pap s u cost).current_bid_stage = s.current_bid_stage := by
  rfl

@[simp] theorem apply_bia_pap_bids_executed_count : (apply_bia_pap s u cost).bids_executed_count = s.bids_executed_count := by
  rfl

@[simp] theorem apply_bia_pap_current_sip_amount : (apply_bia_pap s u cost).current_sip_amount = s.current_sip_amount := by
  rfl

@[simp] theorem apply_bia_pap_initial_breakeven_date : (apply_bia_pap s u cost).initial_breakeven_date = s.initial_breakeven_date := by
  rfl

@[simp] theorem apply_bia_pap_monthly_profits : (apply_bia_pap s u cost).monthly_profits = s.monthly_profits := by
  rfl

@[simp] theorem apply_bia_pap_has_invested : (apply_bia_pap s u cost).has_invested = s.has_invested := by
  rfl

@[simp] theorem apply_bia_pap_max_actual_invested : (apply_bia_pap s u cost).max_actual_invested = s.max_actual_invested := by
  rfl

@[simp] theorem apply_bia_pap_max_actual_invested_date : (apply_bia_pap s u cost).max_actual_invested_date = s.max_actual_invested_date := by
  rfl

@[simp] theorem apply_bia_pap_benchmark_units : (apply_bia_pap s u cost).benchmark_units = s.benchmark_units := by
  rfl

@[simp] theorem apply_bia_pap_benchmark_invested : (apply_bia_pap s u cost).benchmark_invested = s.benchmark_invested := by
  rfl

@[simp] theorem apply_bia_pap_prev_month : (apply_bia_pap s u cost).prev_month = s.prev_month := by
  rfl

@[simp] theorem apply_bia_pap_transactions : (apply_bia_pap s u cost).transactions = s.transactions := by
  rfl

@[simp] theorem apply_bia_pap_portfolio_history : (apply_bia_pap s u cost).portfolio_history = s.portfolio_history := by
  rfl

@[simp] theorem record_history_total_units : (record_history s dt p).total_units = s.total_units := by
  unfold record_history; dsimp only; split <;> rfl

@[simp] theorem record_history_bia : (record_history s dt p).bia = s.bia := by
  unfold record_history; dsimp only; split <;> rfl

@[simp] theorem record_history_pap : (record_history s dt p).pap = s.pap := by
  unfold record_history; dsimp only; split <;> rfl

@[simp] theorem record_history_profit_reserve : (record_history s dt p).profit_reserve = s.profit_reserve := by
  unfold record_history; dsimp only; split <;> rfl

@[simp] theorem record_history_actual_invested : (record_history s dt p).actual_invested = s.actual_invested := by
  unfold record_history; dsimp only; split <;> rfl

@[simp] theorem record_history_current_bid_stage : (record_history s dt p).current_bid_stage = s.current_bid_stage := by
  unfold record_history; dsimp only; split <;> rfl

@[simp] theorem record_history_bids_executed_count : (record_history s dt p).bids_executed_count = s.bids_executed_count := by
  unfold record_history; dsimp only; split <;> rfl

@[simp] theorem record_history_current_sip_amount : (record_history s dt p).current_sip_amount = s.current_sip_amount := by
  unfold record_history; dsimp only; split <;> rfl

@[simp] theorem record_history_monthly_profits : (record_history s dt p).monthly_profits = s.monthly_profits := by
  unfold record_history; dsimp only; split <;> rfl

@[simp] theorem record_history_has_invested : (record_history s dt p).has_invested = s.has_invested := by
  unfold record_history; dsimp only; split <;> rfl

@[simp] theorem record_history_max_actual_invested : (record_history s dt p).max_actual_invested = s.max_actual_invested := by
  unfold record_history; dsimp only; split <;> rfl

@[simp] theorem record_history_max_actual_invested_date : (record_history s dt p).max_actual_invested_date = s.max_actual_invested_date := by
  unfold record_history; dsimp only; split <;> rfl

@[simp] theorem record_history_benchmark_units : (record_history s dt p).benchmark_units = s.benchmark_units := by
  unfold record_history; dsimp only; split <;> rfl

@[simp] theorem record_history_benchmark_invested : (record_history s dt p).benchmark_invested = s.benchmark_invested := by
  unfold record_history; dsimp only; split <;> rfl

@[simp] theorem record_history_prev_month : (record_history s dt p).prev_month = s.prev_month := by
  unfold record_history; dsimp only; split <;> rfl

@[simp] theorem record_history_transactions : (record_history s dt p).transactions = s.transactions := by
  unfold record_history; dsimp only; split <;> rfl

@[simp] theorem apply_funding_reserve_eq :
    (apply_funding s cost dt).profit_reserve = max 0 (s.profit_reserve - cost) := by
  unfold apply_funding track_max
  dsimp only
  split_ifs <;> exact sub_min_eq_max _ _

@[simp] theorem apply_funding_invested_eq :
    (apply_funding s cost dt).actual_invested
      = s.actual_invested + max 0 (cost - s.profit_reserve) := by
  have hkey := min_sub_self_eq_max cost s.profit_reserve
  unfold apply_funding track_max
  dsimp only
  split_ifs with hf h2
  · show s.actual_invested + (cost - min cost s.profit_reserve) = _
    rw [hkey]
  · show s.actual_invested + (cost - min cost s.profit_reserve) = _
    rw [hkey]
  · show s.actual_invested = _
    rw [hkey] at hf
    have h0 : max 0 (cost - s.profit_reserve) = 0 :=
      le_antisymm (not_lt.mp hf) (le_max_left _ _)
    rw [h0, add_zero]

@[simp] theorem apply_bia_pap_bia : (apply_bia_pap s u cost).bia = s.bia + cost := rfl

@[simp] theorem apply_bia_pap_total_units :
    (apply_bia_pap s u cost).total_units = s.total_units + u := rfl

@[simp] theorem apply_bia_pap_pap :
    (apply_bia_pap s u cost).pap = (s.bia + cost) / ((s.total_units + u : ℤ) : ℚ) := rfl

@[simp] theorem log_transaction_transactions :
    (log_transaction s dt ty u p a ai).transactions = s.transactions ++
      [{ date := dt, type := ty, units := u, price := p, amount := a,
         total_units := s.total_units, pap := s.pap, bia := s.bia,
         actual_invested := ai,
         current_market_value := (s.total_units : ℚ) * p,
         pnl_pct := pnl_pct_calc s.bia ((s.total_units : ℚ) * p),
         profit_reserve := s.profit_reserve }] := rfl

@[simp] theorem record_history_portfolio_history :
    (record_history s dt p).portfolio_history = s.portfolio_history ++
      [{ date := dt, units := s.total_units, pap := s.pap, price := p,
         portfolio_value := (s.total_units : ℚ) * p,
         profit_reserve := s.profit_reserve,
         total_equity := (s.total_units : ℚ) * p + s.profit_reserve,
         actual_invested := s.actual_invested }] := by
  unfold record_history; dsimp only; split <;> rfl

end FieldLemmas


/-! ### The reachable-state invariant -/

/-- Invariant that every state reachable by `run` on positive prices satisfies:
nonnegative holdings, cost basis, reserve and fresh capital; the `pap`
bookkeeping identity; the dip-stage bound; and nonnegativity of the snapshots
stored in the transaction log and the history. -/
structure Inv (s : PKPState) : Prop where
  units_nonneg : 0 ≤ s.total_units
  invested_nonneg : 0 ≤ s.actual_invested
  reserve_nonneg : 0 ≤ s.profit_reserve
  bia_nonneg : 0 ≤ s.bia
  pap_eq : 0 < s.total_units → s.pap = s.bia / (s.total_units : ℚ)
  bia_pos : 0 < s.total_units → 0 < s.bia
  pap_zero : s.total_units = 0 → s.pap = 0
  stage_le : s.current_bid_stage ≤ 10
  tx_good : ∀ t ∈ s.transactions, 0 ≤ t.actual_invested ∧ 0 ≤ t.profit_reserve
  hist_good : ∀ r ∈ s.portfolio_history, 0 ≤ r.actual_invested ∧ 0 ≤ r.profit_reserve

theorem Inv.track {s : PKPState} (h : Inv s) (dt : Date) : Inv (track_max s dt) := by
  unfold track_max
  split
  · exact ⟨h.units_nonneg, h.invested_nonneg, h.reserve_nonneg, h.bia_nonneg, h.pap_eq,
      h.bia_pos, h.pap_zero, h.stage_le, h.tx_good, h.hist_good⟩
  · exact h

theorem Inv.log {s : PKPState} (h : Inv s) (dt : Date) (ty : TxType) (u : ℤ)
    (p a ai : ℚ) (hai : 0 ≤ ai) : Inv (log_transaction s dt ty u p a ai) := by
  refine ⟨h.units_nonneg, h.invested_nonneg, h.reserve_nonneg, h.bia_nonneg, h.pap_eq,
      h.bia_pos, h.pap_zero, h.stage_le, ?_, h.hist_good⟩
  intro t ht
  simp only [log_transaction_transactions, List.mem_append, List.mem_singleton] at ht
  rcases ht with ht | ht
  · exact h.tx_good t ht
  · subst ht
    exact ⟨hai, h.reserve_nonneg⟩

theorem Inv.record {s : PKPState} (h : Inv s) (dt : Date) (p : ℚ) :
    Inv (record_history s dt p) := by
  refine ⟨?_, ?_, ?_, ?_, ?_, ?_, ?_, ?_, ?_, ?_⟩ <;>
    simp only [record_history_total_units, record_history_bia, record_history_pap,
      record_history_profit_reserve, record_history_actual_invested,
      record_history_current_bid_stage, record_history_transactions,
      record_history_portfolio_history]
  · exact h.units_nonneg
  · exact h.invested_nonneg
  · exact h.reserve_nonneg
  · exact h.bia_nonneg
  · exact h.pap_eq
  · exact h.bia_pos
  · exact h.pap_zero
  · exact h.stage_le
  · exact h.tx_good
  · intro r hr
    simp only [List.mem_append, List.mem_singleton] at hr
    rcases hr with hr | hr
    · exact h.hist_good r hr
    · subst hr
      exact ⟨h.invested_nonneg, h.reserve_nonneg⟩

theorem Inv.funding {s : PKPState} (h : Inv s) (c : ℚ) (dt : Date) :
    Inv (apply_funding s c dt) := by
  refine ⟨?_, ?_, ?_, ?_, ?_, ?_, ?_, ?_, ?_, ?_⟩ <;>
    simp only [apply_funding_total_units, apply_funding_bia, apply_funding_pap,
      apply_funding_reserve_eq, apply_funding_invested_eq,
      apply_funding_current_bid_stage, apply_funding_transactions,
      apply_funding_portfolio_history]
  · exact h.units_nonneg
  · exact add_nonneg h.invested_nonneg (le_max_left _ _)
  · exact le_max_left _ _
  · exact h.bia_nonneg
  · exact h.pap_eq
  · exact h.bia_pos
  · exact h.pap_zero
  · exact h.stage_le
  · exact h.tx_good
  · exact h.hist_good

theorem Inv.biapap {s : PKPState} (h : Inv s) {u : ℤ} {c : ℚ}
    (hu : 0 < u) (hc : 0 < c) : Inv (apply_bia_pap s u c) := by
  have hunits : 0 < s.total_units + u := by
    have := h.units_nonneg; omega
  refine ⟨?_, ?_, ?_, ?_, ?_, ?_, ?_, ?_, ?_, ?_⟩ <;>
    simp only [apply_bia_pap_total_units, apply_bia_pap_bia, apply_bia_pap_pap,
      apply_bia_pap_profit_reserve, apply_bia_pap_actual_invested,
      apply_bia_pap_current_bid_stage, apply_bia_pap_transactions,
      apply_bia_pap_portfolio_history]
  · omega
  · exact h.invested_nonneg
  · exact h.reserve_nonneg
  · linarith [h.bia_nonneg]
  · intro _
    trivial
  · intro _
    linarith [h.bia_nonneg]
  · intro h0
    omega
  · exact h.stage_le
  · exact h.tx_good
  · exact h.hist_good

theorem ite_lt_eq_min (a b : ℤ) : (if a < b then a else b) = min a b := by
  split <;> omega


/-- The harvest target threshold `max(min_profit_booking_amount, 0.01 * current_value)`. -/
def sell_target (cfg : Config) (s : PKPState) (row : Row) : ℚ :=
  max cfg.min_profit_booking_amount ((1 / 100 : ℚ) * ((s.total_units : ℚ) * row.close))

/-- The number of units a firing harvest sells:
`min(total_units, int((target + price - 1) // price))`. -/
def sell_units (cfg : Config) (s : PKPState) (row : Row) : ℤ :=
  min s.total_units ⌊(sell_target cfg s row + row.close - 1) / row.close⌋

/-- Case analysis of the harvest branch: either it does nothing, or all three
guards hold and the result is one SELL applied to the explicit updated state. -/
theorem sell_exec_cases (cfg : Config) (s : PKPState) (row : Row) :
    ((¬ 0 < s.total_units ∨
      ¬ sell_target cfg s row ≤ (s.total_units : ℚ) * row.close - s.bia ∨
      ¬ 0 < sell_units cfg s row) ∧ sell_exec cfg s row = s) ∨
    (0 < s.total_units ∧
     sell_target cfg s row ≤ (s.total_units : ℚ) * row.close - s.bia ∧
     0 < sell_units cfg s row ∧
     sell_exec cfg s row = log_transaction
       { s with total_units := s.total_units - sell_units cfg s row,
                pap := if 0 < s.total_units - sell_units cfg s row then
                         s.bia / ((s.total_units - sell_units cfg s row : ℤ) : ℚ) else 0,
                actual_invested := s.actual_invested -
                  min ((sell_units cfg s row : ℚ) * row.close) s.actual_invested,
                profit_reserve := s.profit_reserve +
                  ((sell_units cfg s row : ℚ) * row.close -
                   min ((sell_units cfg s row : ℚ) * row.close) s.actual_invested),
                monthly_profits := add_monthly_profit s.monthly_profits
                  (row.date.y, row.date.m) ((sell_units cfg s row : ℚ) * row.close),
                current_bid_stage := 0 }
       row.date TxType.SELL (-(sell_units cfg s row)) row.close
       ((sell_units cfg s row : ℚ) * row.close)
       (s.actual_invested - min ((sell_units cfg s row : ℚ) * row.close) s.actual_invested)) := by
  simp only [sell_target, sell_units]
  unfold sell_exec
  dsimp only
  simp only [ite_lt_eq_min]
  split_ifs with h1 h2 h3 h4 <;>
    first
      | (left; exact ⟨by tauto, rfl⟩)
      | (right; exact ⟨h1, h2, h3, rfl⟩)

/-- Characterization of a successful dip-buy: the guards that held and the
explicit resulting state. -/
theorem bid_exec_some_spec {cfg : Config} {s : PKPState} {row : Row} {s2 : PKPState}
    (heq : bid_exec cfg s row = some s2) :
    0 < s.total_units ∧ s.current_bid_stage < 10 ∧
    (((s.current_bid_stage + 1 : ℕ) : ℚ) * cfg.bid_trigger_drop
      ≤ (s.pap - row.close) / s.pap) ∧
    ∃ u : ℤ, 0 < u ∧
      u = pyInt (((s.current_bid_stage + 1 : ℕ) : ℚ) *
            (cfg.bid_multiplier * cfg.base_sip) / row.close) ∧
      s2 = log_transaction
        { apply_funding (apply_bia_pap s u ((u : ℚ) * row.close))
            ((u : ℚ) * row.close) row.date with
          bids_executed_count :=
            (apply_funding (apply_bia_pap s u ((u : ℚ) * row.close))
              ((u : ℚ) * row.close) row.date).bids_executed_count + 1,
          current_bid_stage :=
            (apply_funding (apply_bia_pap s u ((u : ℚ) * row.close))
              ((u : ℚ) * row.close) row.date).current_bid_stage + 1 }
        row.date (TxType.BID (s.current_bid_stage + 1)) u row.close ((u : ℚ) * row.close)
        (apply_funding (apply_bia_pap s u ((u : ℚ) * row.close))
          ((u : ℚ) * row.close) row.date).actual_invested := by
  unfold bid_exec at heq
  dsimp only at heq
  split_ifs at heq with h1 hst hcond hfac hu <;>
    first
      | (exact Option.noConfusion heq)
      | (exact ⟨h1, hst, hcond, _, hu, rfl, (Option.some.inj heq).symm⟩)
      | omega


theorem Inv.bench {s : PKPState} (h : Inv s) (bi : ℚ) (bu : ℤ) :
    Inv { s with benchmark_invested := bi, benchmark_units := bu } :=
  ⟨h.units_nonneg, h.invested_nonneg, h.reserve_nonneg, h.bia_nonneg, h.pap_eq,
   h.bia_pos, h.pap_zero, h.stage_le, h.tx_good, h.hist_good⟩

theorem Inv.sipamt {s : PKPState} (h : Inv s) (x : ℚ) :
    Inv { s with current_sip_amount := x } :=
  ⟨h.units_nonneg, h.invested_nonneg, h.reserve_nonneg, h.bia_nonneg, h.pap_eq,
   h.bia_pos, h.pap_zero, h.stage_le, h.tx_good, h.hist_good⟩

theorem Inv.prev {s : PKPState} (h : Inv s) (x : Option ℕ) :
    Inv { s with prev_month := x } :=
  ⟨h.units_nonneg, h.invested_nonneg, h.reserve_nonneg, h.bia_nonneg, h.pap_eq,
   h.bia_pos, h.pap_zero, h.stage_le, h.tx_good, h.hist_good⟩

theorem Inv.setinv {s : PKPState} (h : Inv s) {x : ℚ} (hx : 0 ≤ x) (b : Bool) :
    Inv { s with actual_invested := x, has_invested := b } :=
  ⟨h.units_nonneg, hx, h.reserve_nonneg, h.bia_nonneg, h.pap_eq,
   h.bia_pos, h.pap_zero, h.stage_le, h.tx_good, h.hist_good⟩

theorem Inv.lumpsum {cfg : Config} {s : PKPState} {row : Row} (h : Inv s)
    (hp : 0 < row.close) : Inv (lumpsum_exec cfg s row) := by
  unfold lumpsum_exec
  dsimp only
  split_ifs with hl hu
  · have hcost : 0 < (pyInt (cfg.initial_lumpsum / row.close) : ℚ) * row.close :=
      mul_pos (by exact_mod_cast hu) hp
    have h1 : Inv (apply_bia_pap s (pyInt (cfg.initial_lumpsum / row.close))
        ((pyInt (cfg.initial_lumpsum / row.close) : ℚ) * row.close)) :=
      Inv.biapap h hu hcost
    have h2 := Inv.track
      (Inv.setinv h1 (add_nonneg h1.invested_nonneg hcost.le) true) row.date
    have h3 := Inv.bench h2
      ((track_max { apply_bia_pap s (pyInt (cfg.initial_lumpsum / row.close))
          ((pyInt (cfg.initial_lumpsum / row.close) : ℚ) * row.close) with
        actual_invested := (apply_bia_pap s (pyInt (cfg.initial_lumpsum / row.close))
          ((pyInt (cfg.initial_lumpsum / row.close) : ℚ) * row.close)).actual_invested
            + (pyInt (cfg.initial_lumpsum / row.close) : ℚ) * row.close,
        has_invested := true } row.date).benchmark_invested
          + (pyInt (cfg.initial_lumpsum / row.close) : ℚ) * row.close)
      ((track_max { apply_bia_pap s (pyInt (cfg.initial_lumpsum / row.close))
          ((pyInt (cfg.initial_lumpsum / row.close) : ℚ) * row.close) with
        actual_invested := (apply_bia_pap s (pyInt (cfg.initial_lumpsum / row.close))
          ((pyInt (cfg.initial_lumpsum / row.close) : ℚ) * row.close)).actual_invested
            + (pyInt (cfg.initial_lumpsum / row.close) : ℚ) * row.close,
        has_invested := true } row.date).benchmark_units
          + pyInt (cfg.initial_lumpsum / row.close))
    exact Inv.log h3 _ _ _ _ _ _ h3.invested_nonneg
  · exact h
  · exact h

theorem Inv.sip {cfg : Config} {s : PKPState} {row : Row} (h : Inv s)
    (hp : 0 < row.close) : Inv (sip_exec cfg s row) := by
  unfold sip_exec
  dsimp only
  split_ifs with hb
  · have hcost : 0 < (pyInt (cfg.base_sip / row.close) : ℚ) * row.close :=
      mul_pos (by exact_mod_cast hb) hp
    have h2 := Inv.sipamt (Inv.bench h
      (s.benchmark_invested + (pyInt (cfg.base_sip / row.close) : ℚ) * row.close)
      (s.benchmark_units + pyInt (cfg.base_sip / row.close))) cfg.base_sip
    have h4 := Inv.funding (Inv.biapap h2 hb hcost)
      ((pyInt (cfg.base_sip / row.close) : ℚ) * row.close) row.date
    exact Inv.log h4 _ _ _ _ _ _ h4.invested_nonneg
  · exact Inv.sipamt h cfg.base_sip

theorem Inv.bid {cfg : Config} {s : PKPState} {row : Row} {s2 : PKPState} (h : Inv s)
    (hp : 0 < row.close) (heq : bid_exec cfg s row = some s2) : Inv s2 := by
  obtain ⟨h1, hst, hcond, u, hu, hueq, hs2⟩ := bid_exec_some_spec heq
  subst hs2
  have hcost : 0 < (u : ℚ) * row.close := mul_pos (by exact_mod_cast hu) hp
  have hf := Inv.funding (Inv.biapap h hu hcost) ((u : ℚ) * row.close) row.date
  have hstage : (apply_funding (apply_bia_pap s u ((u : ℚ) * row.close))
      ((u : ℚ) * row.close) row.date).current_bid_stage = s.current_bid_stage := by
    simp only [apply_funding_current_bid_stage, apply_bia_pap_current_bid_stage]
  have h3 : Inv { apply_funding (apply_bia_pap s u ((u : ℚ) * row.close))
      ((u : ℚ) * row.close) row.date with
    bids_executed_count := (apply_funding (apply_bia_pap s u ((u : ℚ) * row.close))
      ((u : ℚ) * row.close) row.date).bids_executed_count + 1,
    current_bid_stage := (apply_funding (apply_bia_pap s u ((u : ℚ) * row.close))
      ((u : ℚ) * row.close) row.date).current_bid_stage + 1 } :=
    ⟨hf.units_nonneg, hf.invested_nonneg, hf.reserve_nonneg, hf.bia_nonneg, hf.pap_eq,
     hf.bia_pos, hf.pap_zero,
     by
       show (apply_funding (apply_bia_pap s u ((u : ℚ) * row.close))
         ((u : ℚ) * row.close) row.date).current_bid_stage + 1 ≤ 10
       rw [hstage]
       omega,
     hf.tx_good, hf.hist_good⟩
  exact Inv.log h3 _ _ _ _ _ _ h3.invested_nonneg

theorem Inv.sell {cfg : Config} {s : PKPState} {row : Row} (h : Inv s) :
    Inv (sell_exec cfg s row) := by
  rcases sell_exec_cases cfg s row with ⟨_, heq⟩ | ⟨h1, h2, h3, heq⟩
  · rw [heq]
    exact h
  · rw [heq]
    have huc_le : sell_units cfg s row ≤ s.total_units := min_le_left _ _
    have hmin_inv : min ((sell_units cfg s row : ℚ) * row.close) s.actual_invested
        ≤ s.actual_invested := min_le_right _ _
    have hmin_sale : min ((sell_units cfg s row : ℚ) * row.close) s.actual_invested
        ≤ (sell_units cfg s row : ℚ) * row.close := min_le_left _ _
    have hinv' : 0 ≤ s.actual_invested
        - min ((sell_units cfg s row : ℚ) * row.close) s.actual_invested := by
      linarith [h.invested_nonneg]
    have hstruct : Inv
        { s with total_units := s.total_units - sell_units cfg s row,
                 pap := if 0 < s.total_units - sell_units cfg s row then
                          s.bia / ((s.total_units - sell_units cfg s row : ℤ) : ℚ) else 0,
                 actual_invested := s.actual_invested -
                   min ((sell_units cfg s row : ℚ) * row.close) s.actual_invested,
                 profit_reserve := s.profit_reserve +
                   ((sell_units cfg s row : ℚ) * row.close -
                    min ((sell_units cfg s row : ℚ) * row.close) s.actual_invested),
                 monthly_profits := add_monthly_profit s.monthly_profits
                   (row.date.y, row.date.m) ((sell_units cfg s row : ℚ) * row.close),
                 current_bid_stage := 0 } := by
      refine ⟨?_, hinv', ?_, h.bia_nonneg, ?_, ?_, ?_, ?_, h.tx_good, h.hist_good⟩
      · show 0 ≤ s.total_units - sell_units cfg s row
        omega
      · show 0 ≤ s.profit_reserve + ((sell_units cfg s row : ℚ) * row.close -
          min ((sell_units cfg s row : ℚ) * row.close) s.actual_invested)
        linarith [h.reserve_nonneg]
      · intro hpos
        have hpos' : 0 < s.total_units - sell_units cfg s row := hpos
        show (if 0 < s.total_units - sell_units cfg s row then
            s.bia / ((s.total_units - sell_units cfg s row : ℤ) : ℚ) else 0) = _
        rw [if_pos hpos']
      · intro _
        exact h.bia_pos h1
      · intro h0
        have h0' : s.total_units - sell_units cfg s row = 0 := h0
        show (if 0 < s.total_units - sell_units cfg s row then
            s.bia / ((s.total_units - sell_units cfg s row : ℤ) : ℚ) else 0) = 0
        rw [if_neg (by omega)]
      · show (0 : ℕ) ≤ 10
        omega
    exact Inv.log hstruct _ _ _ _ _ _ hinv'

theorem Inv.daytail {cfg : Config} {s : PKPState} {row : Row} (h : Inv s)
    (hp : 0 < row.close) : Inv (day_tail cfg s row) := by
  unfold day_tail
  cases heq : bid_exec cfg s row with
  | some s2 => exact Inv.record (Inv.bid h hp heq) _ _
  | none => exact Inv.record (Inv.sell h) _ _

theorem Inv.day {cfg : Config} {s0 : PKPState} {row : Row} (h : Inv s0)
    (hp : 0 < row.close) : Inv (day_rules cfg s0 row) := by
  unfold day_rules
  dsimp only
  split
  · exact Inv.record (Inv.sip (Inv.prev h _) hp) _ _
  · exact Inv.daytail (Inv.prev h _) hp

theorem Inv.onestep {cfg : Config} {s : PKPState} {i : ℕ} {row : Row} (h : Inv s)
    (hp : 0 < row.close) : Inv (step cfg s i row) := by
  unfold step
  refine Inv.day ?_ hp
  split
  · exact Inv.lumpsum h hp
  · exact h

theorem Inv.run_from {cfg : Config} :
    ∀ (l : List Row) (i : ℕ) (s : PKPState), Inv s → (∀ r ∈ l, 0 < r.close) →
      Inv (runFrom cfg i s l)
  | [], _, _, h, _ => h
  | row :: rest, i, s, h, hp => by
    have hrow : 0 < row.close := hp row (List.mem_cons_self _ _)
    have hrest : ∀ r ∈ rest, 0 < r.close := fun r hr => hp r (List.mem_cons_of_mem _ hr)
    exact Inv.run_from rest (i + 1) (step cfg s i row) (Inv.onestep h hrow) hrest

theorem inv_init (cfg : Config) : Inv (initState cfg) := by
  refine ⟨le_refl _, le_refl _, le_refl _, le_refl _, ?_, ?_, ?_, ?_, ?_, ?_⟩ <;>
    simp [initState]

theorem inv_run (cfg : Config) (data : List Row) (hp : ∀ r ∈ data, 0 < r.close) :
    Inv (run cfg data) :=
  Inv.run_from data 0 (initState cfg) (inv_init cfg) hp


/-! ### Concrete inputs used by witnesses and counterexamples -/

/-- Config used by several witnesses: base_sip 100000, booking floor 10000,
bid multiplier 0.5, trigger 2 percent, lumpsum 100000. -/
def cfgA : Config := ⟨100000, 10000, 1 / 2, 1 / 50, 100000⟩

/-- Four trading days across three months with positive prices. -/
def dataA : List Row :=
  [⟨⟨2020, 1, 15⟩, 100⟩, ⟨⟨2020, 2, 3⟩, 90⟩, ⟨⟨2020, 2, 4⟩, 80⟩, ⟨⟨2020, 3, 2⟩, 120⟩]

/-- Config of the C1 scenario: booking floor 16.4, lumpsum 1000. -/
def cfgC1 : Config := ⟨100000, 82 / 5, 1 / 2, 1 / 50, 1000⟩

/-- Two same-month days: price 2.5 then 4; the lumpsum buys 400 units at 2.5,
and day two fires the harvest with target 16.4 at price 4. -/
def dataC1 : List Row := [⟨⟨2020, 1, 1⟩, 5 / 2⟩, ⟨⟨2020, 1, 2⟩, 4⟩]

/-- A mid-run portfolio state holding 400 units at cost basis 1000 with 1000 of
fresh capital outstanding, as produced by the `dataC1` lumpsum. -/
def stateB : PKPState :=
  { total_units := 400, bia := 1000, pap := 5 / 2, profit_reserve := 0,
    actual_invested := 1000, current_bid_stage := 0, bids_executed_count := 0,
    current_sip_amount := 100000, initial_breakeven_date := none,
    monthly_profits := [], has_invested := true, max_actual_invested := 1000,
    max_actual_invested_date := none, benchmark_units := 400,
    benchmark_invested := 1000, prev_month := some 1, transactions := [],
    portfolio_history := [] }

/-- Day-two row of the C1 scenario. -/
def rowB : Row := ⟨⟨2020, 1, 2⟩, 4⟩

/-- Config with no lumpsum, used by the C2 counterexample. -/
def cfgC2 : Config := ⟨100000, 10000, 1 / 2, 1 / 50, 0⟩

/-- A single day on which nothing can be bought (no lumpsum, day one is never a
contribution day), so `actual_invested` stays 0 throughout. -/
def dataC2 : List Row := [⟨⟨2020, 1, 1⟩, 100⟩]

/-! ### C7: actual_invested and profit_reserve never negative -/

/-- C7: for every run with strictly positive input prices, `actual_invested`
and `profit_reserve` are nonnegative in every state reachable after any prefix
of the input, and in every recorded Transaction and HistoryRecord snapshot. -/
theorem C7_nonneg_invariant (cfg : Config) (data : List Row)
    (hpos : ∀ r ∈ data, 0 < r.close) :
    (∀ n : ℕ, 0 ≤ (run cfg (data.take n)).actual_invested ∧
              0 ≤ (run cfg (data.take n)).profit_reserve) ∧
    (∀ t ∈ (run cfg data).transactions,
        0 ≤ t.actual_invested ∧ 0 ≤ t.profit_reserve) ∧
    (∀ r ∈ (run cfg data).portfolio_history,
        0 ≤ r.actual_invested ∧ 0 ≤ r.profit_reserve) := by
  have hmain := inv_run cfg data hpos
  refine ⟨?_, hmain.tx_good, hmain.hist_good⟩
  intro n
  have h := inv_run cfg (data.take n) (fun r hr => hpos r (List.take_subset n data hr))
  exact ⟨h.invested_nonneg, h.reserve_nonneg⟩

unseal Rat.inv Rat.mul Rat.add Rat.sub in
/-- Witness for C7 at a concrete four-day run. -/
theorem C7_witness :
    0 ≤ (run cfgA (dataA.take 2)).actual_invested ∧
    0 ≤ (run cfgA (dataA.take 2)).profit_reserve :=
  (C7_nonneg_invariant cfgA dataA (by decide)).1 2

/-! ### C9: no division by zero -/

/-- C9: with positive prices, in every reachable prefix state positive holdings
force `pap > 0` (so the unguarded `(pap - price) / pap` in the dip-buy branch,
which is only reached when `total_units > 0`, has a nonzero denominator); the
same holds at the day-zero lumpsum state where the dip branch can also run; and
the percentage computations are guarded to return 0 on a nonpositive
denominator. -/
theorem C9_division_guards (cfg : Config) (data : List Row)
    (hpos : ∀ r ∈ data, 0 < r.close) :
    (∀ n : ℕ, 0 < (run cfg (data.take n)).total_units →
        0 < (run cfg (data.take n)).pap) ∧
    (∀ cfg2 : Config, ∀ row : Row, 0 < row.close →
        0 < (lumpsum_exec cfg2 (initState cfg2) row).total_units →
        0 < (lumpsum_exec cfg2 (initState cfg2) row).pap) ∧
    (∀ pap price : ℚ, pap ≤ 0 → gain_pct_calc pap price = 0) ∧
    (∀ bia mv : ℚ, bia ≤ 0 → pnl_pct_calc bia mv = 0) := by
  refine ⟨?_, ?_, ?_, ?_⟩
  · intro n hu
    have h := inv_run cfg (data.take n) (fun r hr => hpos r (List.take_subset n data hr))
    rw [h.pap_eq hu]
    exact div_pos (h.bia_pos hu) (by exact_mod_cast hu)
  · intro cfg2 row hp hu
    have h : Inv (lumpsum_exec cfg2 (initState cfg2) row) :=
      Inv.lumpsum (inv_init cfg2) hp
    rw [h.pap_eq hu]
    exact div_pos (h.bia_pos hu) (by exact_mod_cast hu)
  · intro pap price hle
    unfold gain_pct_calc
    rw [if_neg (not_lt.mpr hle)]
  · intro bia mv hle
    unfold pnl_pct_calc
    rw [if_neg (not_lt.mpr hle)]

unseal Rat.inv Rat.mul Rat.add Rat.sub in
/-- Witness for C9: pap is positive after day one of the concrete run. -/
theorem C9_witness : 0 < (run cfgA (dataA.take 1)).pap :=
  (C9_division_guards cfgA dataA (by decide)).1 1 (by decide)

/-! ### C5: conservation on sell -/

/-- C5: when the harvest fires (positive holdings, profit at or above target,
positive unit count), the reduction of `actual_invested` is
`min(sale_value, actual_invested_before)`, the reserve gains exactly the rest,
and the two parts sum to the sale value exactly. -/
theorem C5_sell_conservation (cfg : Config) (s : PKPState) (row : Row)
    (h1 : 0 < s.total_units)
    (h2 : sell_target cfg s row ≤ (s.total_units : ℚ) * row.close - s.bia)
    (h3 : 0 < sell_units cfg s row) :
    (sell_exec cfg s row).actual_invested
        = s.actual_invested
          - min ((sell_units cfg s row : ℚ) * row.close) s.actual_invested ∧
    (sell_exec cfg s row).profit_reserve
        = s.profit_reserve + ((sell_units cfg s row : ℚ) * row.close
            - min ((sell_units cfg s row : ℚ) * row.close) s.actual_invested) ∧
    ((sell_units cfg s row : ℚ) * row.close
        - min ((sell_units cfg s row : ℚ) * row.close) s.actual_invested)
      + min ((sell_units cfg s row : ℚ) * row.close) s.actual_invested
      = (sell_units cfg s row : ℚ) * row.close := by
  rcases sell_exec_cases cfg s row with ⟨hguards, _⟩ | ⟨_, _, _, heq⟩
  · tauto
  · rw [heq]
    exact ⟨by simp, by simp, by ring⟩

unseal Rat.inv Rat.mul Rat.add Rat.sub in
/-- Witness for C5 at the concrete harvest of `stateB`/`rowB`. -/
theorem C5_witness :
    (sell_exec cfgC1 stateB rowB).actual_invested
      = stateB.actual_invested
        - min ((sell_units cfgC1 stateB rowB : ℚ) * rowB.close)
            stateB.actual_invested :=
  (C5_sell_conservation cfgC1 stateB rowB (by decide) (by decide) (by decide)).1


/-! ### C4: reserve-first funding contract -/

/-- C4: every executed purchase of cost `c` against pre-purchase reserve `r`
leaves reserve `max(0, r - c)` and adds exactly `max(0, c - r)` fresh capital:
stated for the shared funding block (used verbatim by the SIP and BID
branches), at the SIP and BID call sites, and at the lumpsum's only call site,
where the pre-purchase reserve of the freshly constructed state is 0. -/
theorem C4_reserve_first_funding :
    (∀ (s : PKPState) (c : ℚ) (dt : Date),
        (apply_funding s c dt).profit_reserve = max 0 (s.profit_reserve - c) ∧
        (apply_funding s c dt).actual_invested
          = s.actual_invested + max 0 (c - s.profit_reserve)) ∧
    (∀ (cfg : Config) (s : PKPState) (row : Row),
        0 < pyInt (cfg.base_sip / row.close) →
        (sip_exec cfg s row).profit_reserve
            = max 0 (s.profit_reserve
                - (pyInt (cfg.base_sip / row.close) : ℚ) * row.close) ∧
        (sip_exec cfg s row).actual_invested
            = s.actual_invested
              + max 0 ((pyInt (cfg.base_sip / row.close) : ℚ) * row.close
                  - s.profit_reserve)) ∧
    (∀ (cfg : Config) (s : PKPState) (row : Row) (s2 : PKPState),
        bid_exec cfg s row = some s2 →
        ∃ t, s2.transactions.getLast? = some t ∧
          s2.profit_reserve = max 0 (s.profit_reserve - t.amount) ∧
          s2.actual_invested = s.actual_invested + max 0 (t.amount - s.profit_reserve)) ∧
    (∀ (cfg : Config) (row : Row),
        0 < cfg.initial_lumpsum → 0 < row.close →
        0 < pyInt (cfg.initial_lumpsum / row.close) →
        (lumpsum_exec cfg (initState cfg) row).profit_reserve
            = max 0 ((initState cfg).profit_reserve
                - (pyInt (cfg.initial_lumpsum / row.close) : ℚ) * row.close) ∧
        (lumpsum_exec cfg (initState cfg) row).actual_invested
            = (initState cfg).actual_invested
              + max 0 ((pyInt (cfg.initial_lumpsum / row.close) : ℚ) * row.close
                  - (initState cfg).profit_reserve)) := by
  refine ⟨?_, ?_, ?_, ?_⟩
  · intro s c dt
    exact ⟨by simp, by simp⟩
  · intro cfg s row h
    unfold sip_exec
    dsimp only
    split_ifs
    · exact ⟨by simp, by simp⟩
  · intro cfg s row s2 heq
    obtain ⟨h1, hst, hcond, u, hu, hueq, hs2⟩ := bid_exec_some_spec heq
    subst hs2
    exact ⟨_, List.getLast?_concat _, by simp, by simp⟩
  · intro cfg row hl hp hu
    have hc : (0 : ℚ) < (pyInt (cfg.initial_lumpsum / row.close) : ℚ) * row.close :=
      mul_pos (by exact_mod_cast hu) hp
    unfold lumpsum_exec
    dsimp only
    rw [if_pos hl, if_pos hu]
    constructor
    · simp only [log_transaction_profit_reserve, track_max_profit_reserve,
        apply_bia_pap_profit_reserve]
      show (initState cfg).profit_reserve
        = max 0 ((initState cfg).profit_reserve
            - (pyInt (cfg.initial_lumpsum / row.close) : ℚ) * row.close)
      rw [show (initState cfg).profit_reserve = 0 from rfl]
      rw [max_eq_left (by linarith)]
    · simp only [log_transaction_actual_invested, track_max_actual_invested,
        apply_bia_pap_actual_invested]
      show (initState cfg).actual_invested
          + (pyInt (cfg.initial_lumpsum / row.close) : ℚ) * row.close
        = (initState cfg).actual_invested
          + max 0 ((pyInt (cfg.initial_lumpsum / row.close) : ℚ) * row.close
              - (initState cfg).profit_reserve)
      rw [show (initState cfg).profit_reserve = 0 from rfl, sub_zero,
        max_eq_right hc.le]

unseal Rat.inv Rat.mul Rat.add Rat.sub in
/-- Witness for C4 at a concrete SIP purchase. -/
theorem C4_witness :
    (sip_exec cfgA stateB rowB).profit_reserve
      = max 0 (stateB.profit_reserve
          - (pyInt (cfgA.base_sip / rowB.close) : ℚ) * rowB.close) :=
  (C4_reserve_first_funding.2.1 cfgA stateB rowB (by decide)).1

/-! ### C1: harvest sizing (corrected) -/

unseal Rat.inv Rat.mul Rat.add Rat.sub in
/-- Counterexample to C1 as stated: in the concrete run the harvest fires with
target 16.4 at price 4 and sells 4 units for 16, but
`min(total_units, ceil(target / price)) = 5`, and the sale value 16 is below
the target 16.4. -/
theorem C1_counterexample :
    ((run cfgC1 dataC1).transactions.map (fun t => (t.type, t.units, t.amount))
       = [(TxType.LUMPSUM, (400 : ℤ), (1000 : ℚ)),
          (TxType.SELL, (-4 : ℤ), (16 : ℚ))]) ∧
    max (82 / 5 : ℚ) ((1 / 100 : ℚ) * ((400 : ℚ) * 4)) = 82 / 5 ∧
    min ((400 : ℤ)) ⌈((82 / 5 : ℚ)) / 4⌉ = 5 ∧
    (16 : ℚ) < 82 / 5 := by
  decide

/-- C1 as amended: a firing harvest sells
`min(total_units, floor((target + price - 1) / price))` units (the code's
float analogue of the integer ceiling idiom), and when the floor term is not
capped by holdings the sale value exceeds `target - 1` (not necessarily the
target itself). -/
theorem C1_amended (cfg : Config) (s : PKPState) (row : Row)
    (hp : 0 < row.close) (h1 : 0 < s.total_units)
    (h2 : sell_target cfg s row ≤ (s.total_units : ℚ) * row.close - s.bia)
    (h3 : 0 < sell_units cfg s row) :
    ∃ t, (sell_exec cfg s row).transactions = s.transactions ++ [t] ∧
      t.type = TxType.SELL ∧
      t.units = -(min s.total_units
        ⌊(sell_target cfg s row + row.close - 1) / row.close⌋) ∧
      t.amount = ((min s.total_units
        ⌊(sell_target cfg s row + row.close - 1) / row.close⌋ : ℤ) : ℚ) * row.close ∧
      (⌊(sell_target cfg s row + row.close - 1) / row.close⌋ ≤ s.total_units →
        sell_target cfg s row - 1 < t.amount) := by
  have hne : row.close ≠ 0 := ne_of_gt hp
  have key : sell_target cfg s row - 1
      < ((⌊(sell_target cfg s row + row.close - 1) / row.close⌋ : ℤ) : ℚ) * row.close := by
    have hfl : ((sell_target cfg s row + row.close - 1) / row.close - 1) * row.close
        < ((⌊(sell_target cfg s row + row.close - 1) / row.close⌋ : ℤ) : ℚ) * row.close :=
      mul_lt_mul_of_pos_right (Int.sub_one_lt_floor _) hp
    have hdm : (sell_target cfg s row + row.close - 1) / row.close * row.close
        = sell_target cfg s row + row.close - 1 := div_mul_cancel₀ _ hne
    have hexp : ((sell_target cfg s row + row.close - 1) / row.close - 1) * row.close
        = (sell_target cfg s row + row.close - 1) / row.close * row.close - row.close := by
      ring
    rw [hexp, hdm] at hfl
    linarith
  rcases sell_exec_cases cfg s row with ⟨hguards, _⟩ | ⟨_, _, _, heq⟩
  · tauto
  · rw [heq]
    exact ⟨_, rfl, rfl, rfl, rfl, fun hle => by
      show sell_target cfg s row - 1 < ((sell_units cfg s row : ℤ) : ℚ) * row.close
      have hmin : sell_units cfg s row
          = ⌊(sell_target cfg s row + row.close - 1) / row.close⌋ := by
        rw [sell_units]
        exact min_eq_right hle
      rw [hmin]
      exact key⟩

unseal Rat.inv Rat.mul Rat.add Rat.sub in
/-- Witness for the amended C1 at the concrete harvest of `stateB`/`rowB`. -/
theorem C1_witness :
    ∃ t, (sell_exec cfgC1 stateB rowB).transactions = stateB.transactions ++ [t] ∧
      t.type = TxType.SELL ∧
      t.units = -(min stateB.total_units
        ⌊(sell_target cfgC1 stateB rowB + rowB.close - 1) / rowB.close⌋) ∧
      t.amount = ((min stateB.total_units
        ⌊(sell_target cfgC1 stateB rowB + rowB.close - 1) / rowB.close⌋ : ℤ) : ℚ)
          * rowB.close ∧
      (⌊(sell_target cfgC1 stateB rowB + rowB.close - 1) / rowB.close⌋
          ≤ stateB.total_units →
        sell_target cfgC1 stateB rowB - 1 < t.amount) :=
  C1_amended cfgC1 stateB rowB (by decide) (by decide) (by decide) (by decide)


/-! ### C2: sustained breakeven when fresh capital never exceeds the tolerance -/

/-- The backward scan returns its accumulator unchanged when no record ever
has `actual_invested > 1`. -/
theorem last_positive_date_eq_none {hist : List HistoryRecord}
    (hall : ∀ r ∈ hist, r.actual_invested ≤ 1) :
    last_positive_date hist = none := by
  have key : ∀ (l : List HistoryRecord) (acc : Option Date),
      (∀ r ∈ l, r.actual_invested ≤ 1) →
      l.foldl (fun acc r => if 1 < r.actual_invested then some r.date else acc) acc
        = acc := by
    intro l
    induction l with
    | nil => intro acc _; rfl
    | cons r rest ih =>
      intro acc hall'
      rw [List.foldl_cons,
        if_neg (not_lt.mpr (hall' r (List.mem_cons_self _ _)))]
      exact ih acc (fun x hx => hall' x (List.mem_cons_of_mem _ hx))
  exact key hist none hall

/-- C2 as amended: if no record of a non-empty run history ever has
`actual_invested > 1.0`, then `generate_report` leaves the sustained breakeven
date `None` unconditionally, while `get_metrics` reports the "Not Reached"
sentinel only when the first record has `actual_invested > 0`; when the first
record already has `actual_invested <= 0`, `get_metrics` instead reports the
first record's date. -/
theorem C2_amended (cfg : Config) (data : List Row)
    (hne : (run cfg data).portfolio_history ≠ [])
    (hall : ∀ r ∈ (run cfg data).portfolio_history, r.actual_invested ≤ 1) :
    sustained_breakeven_report (run cfg data).portfolio_history = none ∧
    ∀ h0, (run cfg data).portfolio_history.head? = some h0 →
      (0 < h0.actual_invested →
        sustained_breakeven_metrics (run cfg data).portfolio_history = none) ∧
      (h0.actual_invested ≤ 0 →
        sustained_breakeven_metrics (run cfg data).portfolio_history
          = some h0.date) := by
  have hlp := last_positive_date_eq_none hall
  obtain ⟨fin, hfin⟩ : ∃ x, (run cfg data).portfolio_history.getLast? = some x := by
    cases hgl : (run cfg data).portfolio_history.getLast? with
    | none => exact absurd (List.getLast?_eq_none_iff.mp hgl) hne
    | some x => exact ⟨x, rfl⟩
  constructor
  · unfold sustained_breakeven_report
    rw [hfin, hlp]
  · intro h0 hh0
    constructor
    · intro hpos
      unfold sustained_breakeven_metrics
      rw [hfin, hlp, hh0]
      show (if h0.actual_invested ≤ 0 then some h0.date else none) = none
      rw [if_neg (not_le.mpr hpos)]
    · intro hle
      unfold sustained_breakeven_metrics
      rw [hfin, hlp, hh0]
      show (if h0.actual_invested ≤ 0 then some h0.date else none) = some h0.date
      rw [if_pos hle]

unseal Rat.inv Rat.mul Rat.add Rat.sub in
/-- Counterexample to C2 as stated: a one-day run in which nothing is ever
bought, so `actual_invested` is 0 on every record, yet `get_metrics` computes
a sustained breakeven date (the first record's date) instead of the
"Not Reached" sentinel. -/
theorem C2_counterexample :
    ((run cfgC2 dataC2).portfolio_history ≠ []) ∧
    (∀ r ∈ (run cfgC2 dataC2).portfolio_history, ¬ (1 < r.actual_invested)) ∧
    sustained_breakeven_metrics (run cfgC2 dataC2).portfolio_history
      = some ⟨2020, 1, 1⟩ ∧
    break_even_date_metric (run cfgC2 dataC2) = some ⟨2020, 1, 1⟩ := by
  decide

unseal Rat.inv Rat.mul Rat.add Rat.sub in
/-- Witness for the amended C2 at the concrete one-day run. -/
theorem C2_witness :
    sustained_breakeven_report (run cfgC2 dataC2).portfolio_history = none :=
  (C2_amended cfgC2 dataC2 (by decide) (by decide)).1


/-! ### Shape lemmas: what each branch appends and which fields it leaves alone -/

theorem lumpsum_exec_shape (cfg : Config) (s : PKPState) (row : Row) :
    (lumpsum_exec cfg s row).transactions
        = s.transactions
          ++ (lumpsum_exec cfg s row).transactions.drop s.transactions.length ∧
    (∀ t ∈ (lumpsum_exec cfg s row).transactions.drop s.transactions.length,
        t.type = TxType.LUMPSUM) ∧
    (lumpsum_exec cfg s row).current_bid_stage = s.current_bid_stage ∧
    (lumpsum_exec cfg s row).prev_month = s.prev_month ∧
    (lumpsum_exec cfg s row).portfolio_history = s.portfolio_history := by
  unfold lumpsum_exec
  dsimp only
  split_ifs <;>
    refine ⟨?_, ?_, ?_, ?_, ?_⟩ <;>
    simp [List.drop_left]

theorem sip_exec_shape (cfg : Config) (s : PKPState) (row : Row) :
    (sip_exec cfg s row).transactions
        = s.transactions
          ++ (sip_exec cfg s row).transactions.drop s.transactions.length ∧
    (∀ t ∈ (sip_exec cfg s row).transactions.drop s.transactions.length,
        t.type = TxType.SIP) ∧
    (sip_exec cfg s row).current_bid_stage = s.current_bid_stage ∧
    (sip_exec cfg s row).prev_month = s.prev_month ∧
    (sip_exec cfg s row).portfolio_history = s.portfolio_history := by
  unfold sip_exec
  dsimp only
  split_ifs <;>
    refine ⟨?_, ?_, ?_, ?_, ?_⟩ <;>
    simp [List.drop_left]

theorem sell_exec_shape (cfg : Config) (s : PKPState) (row : Row) :
    (sell_exec cfg s row).transactions
        = s.transactions
          ++ (sell_exec cfg s row).transactions.drop s.transactions.length ∧
    (∀ t ∈ (sell_exec cfg s row).transactions.drop s.transactions.length,
        t.type = TxType.SELL) ∧
    ((sell_exec cfg s row).transactions.drop s.transactions.length = [] →
        (sell_exec cfg s row).current_bid_stage = s.current_bid_stage) ∧
    ((sell_exec cfg s row).transactions.drop s.transactions.length ≠ [] →
        (sell_exec cfg s row).current_bid_stage = 0) ∧
    (sell_exec cfg s row).benchmark_units = s.benchmark_units ∧
    (sell_exec cfg s row).benchmark_invested = s.benchmark_invested ∧
    (sell_exec cfg s row).prev_month = s.prev_month ∧
    (sell_exec cfg s row).portfolio_history = s.portfolio_history := by
  rcases sell_exec_cases cfg s row with ⟨_, heq⟩ | ⟨_, _, _, heq⟩ <;>
    rw [heq] <;>
    refine ⟨?_, ?_, ?_, ?_, ?_, ?_, ?_, ?_⟩ <;>
    simp [List.drop_left]

theorem bid_exec_shape {cfg : Config} {s : PKPState} {row : Row} {s2 : PKPState}
    (heq : bid_exec cfg s row = some s2) :
    s2.transactions
        = s.transactions ++ s2.transactions.drop s.transactions.length ∧
    (∀ t ∈ s2.transactions.drop s.transactions.length, t.type.isBid = true) ∧
    s2.transactions.drop s.transactions.length ≠ [] ∧
    s2.current_bid_stage = s.current_bid_stage + 1 ∧
    s.current_bid_stage < 10 ∧
    s2.benchmark_units = s.benchmark_units ∧
    s2.benchmark_invested = s.benchmark_invested ∧
    s2.prev_month = s.prev_month ∧
    s2.portfolio_history = s.portfolio_history := by
  obtain ⟨h1, hst, hcond, u, hu, hueq, hs2⟩ := bid_exec_some_spec heq
  subst hs2
  refine ⟨?_, ?_, ?_, ?_, hst, ?_, ?_, ?_, ?_⟩ <;>
    simp [List.drop_left, TxType.isBid]


/-! ### C3: contribution-day classification -/

theorem day_tail_prev_month (cfg : Config) (s1 : PKPState) (row : Row) :
    (day_tail cfg s1 row).prev_month = s1.prev_month := by
  unfold day_tail
  cases hb : bid_exec cfg s1 row with
  | some s2 =>
    rw [record_history_prev_month]
    obtain ⟨_, _, _, _, _, _, _, hprev, _⟩ := bid_exec_shape hb
    exact hprev
  | none =>
    rw [record_history_prev_month]
    obtain ⟨_, _, _, _, _, _, hprev, _⟩ := sell_exec_shape cfg s1 row
    exact hprev

theorem day_rules_prev_month (cfg : Config) (s0 : PKPState) (row : Row) :
    (day_rules cfg s0 row).prev_month = some row.date.m := by
  unfold day_rules
  dsimp only
  split
  · rw [record_history_prev_month]
    obtain ⟨_, _, _, hprev, _⟩ := sip_exec_shape cfg
      { s0 with prev_month := some row.date.m } row
    rw [hprev]
  · rw [day_tail_prev_month]

/-- After any processed day the loop variable `prev_month` holds that day's
calendar month. -/
theorem step_prev_month (cfg : Config) (s : PKPState) (i : ℕ) (row : Row) :
    (step cfg s i row).prev_month = some row.date.m := by
  unfold step
  exact day_rules_prev_month cfg _ row

/-- The state after processing the prefix ending at index `j` has `prev_month`
equal to the month of day `j`, for any start index and start state. -/
theorem runFrom_take_prev (cfg : Config) :
    ∀ (l : List Row) (j : ℕ) (h : j < l.length) (i : ℕ) (s : PKPState),
      (runFrom cfg i s (l.take (j + 1))).prev_month
        = some ((l.get ⟨j, h⟩).date.m)
  | [], j, h, _, _ => absurd h (by simp)
  | row :: rest, 0, _, i, s => by
    show (runFrom cfg (i + 1) (step cfg s i row) []).prev_month = some row.date.m
    exact step_prev_month cfg s i row
  | row :: rest, j + 1, h, i, s => by
    show (runFrom cfg (i + 1) (step cfg s i row) (rest.take (j + 1))).prev_month = _
    exact runFrom_take_prev cfg rest j (by simpa using h) (i + 1) (step cfg s i row)

/-- C3: day `i` is classified as a contribution (SIP) day iff a previous record
exists (`i = j + 1`) and its calendar month differs from day `i`'s; the first
record is never a contribution day.  The classification the engine uses at day
`i` is `isSipDay` applied to the prefix state's `prev_month` (the day-0
lumpsum does not touch `prev_month`). -/
theorem C3_contribution_day (cfg : Config) (data : List Row) (i : ℕ)
    (h : i < data.length) :
    isSipDay (run cfg (data.take i)).prev_month (data.get ⟨i, h⟩).date.m = true
      ↔ ∃ j, i = j + 1 ∧ ∃ hj : j < data.length,
          (data.get ⟨j, hj⟩).date.m ≠ (data.get ⟨i, h⟩).date.m := by
  cases i with
  | zero =>
    constructor
    · intro hiss
      have : (run cfg (data.take 0)).prev_month = none := rfl
      rw [this] at hiss
      exact absurd hiss (by simp [isSipDay])
    · rintro ⟨j, hj0, _⟩
      exact absurd hj0 (by omega)
  | succ j =>
    have hj : j < data.length := by omega
    have hp : (run cfg (data.take (j + 1))).prev_month
        = some ((data.get ⟨j, hj⟩).date.m) :=
      runFrom_take_prev cfg data j hj 0 (initState cfg)
    rw [hp]
    simp only [isSipDay, bne_iff_ne, ne_eq]
    constructor
    · intro hne
      exact ⟨j, rfl, hj, hne⟩
    · rintro ⟨j', hj'eq, hj', hne⟩
      have hjj : j' = j := by omega
      subst hjj
      exact hne

unseal Rat.inv Rat.mul Rat.add Rat.sub in
/-- Witness for C3: day 1 of the concrete run (month changes from 1 to 2) is
classified as a contribution day. -/
theorem C3_witness :
    isSipDay (run cfgA (dataA.take 1)).prev_month
      ((dataA.get ⟨1, by decide⟩).date.m) = true :=
  (C3_contribution_day cfgA dataA 1 (by decide)).mpr
    ⟨0, rfl, by decide, by decide⟩


/-! ### C6: the pap bookkeeping identity at every history record -/

theorem day_tail_hist_mem (cfg : Config) (s1 : PKPState) (row : Row) :
    ∀ r ∈ (day_tail cfg s1 row).portfolio_history,
      r ∈ s1.portfolio_history ∨
      (r.pap = (day_tail cfg s1 row).pap ∧
       r.units = (day_tail cfg s1 row).total_units) := by
  unfold day_tail
  cases hb : bid_exec cfg s1 row with
  | some s2 =>
    intro r hr
    rw [record_history_portfolio_history] at hr
    rcases List.mem_append.mp hr with hr | hr
    · left
      obtain ⟨_, _, _, _, _, _, _, _, hhist⟩ := bid_exec_shape hb
      rwa [hhist] at hr
    · right
      rw [List.mem_singleton] at hr
      subst hr
      exact ⟨by rw [record_history_pap], by rw [record_history_total_units]⟩
  | none =>
    intro r hr
    rw [record_history_portfolio_history] at hr
    rcases List.mem_append.mp hr with hr | hr
    · left
      obtain ⟨_, _, _, _, _, _, _, hhist⟩ := sell_exec_shape cfg s1 row
      rwa [hhist] at hr
    · right
      rw [List.mem_singleton] at hr
      subst hr
      exact ⟨by rw [record_history_pap], by rw [record_history_total_units]⟩

theorem day_rules_hist_mem (cfg : Config) (s0 : PKPState) (row : Row) :
    ∀ r ∈ (day_rules cfg s0 row).portfolio_history,
      r ∈ s0.portfolio_history ∨
      (r.pap = (day_rules cfg s0 row).pap ∧
       r.units = (day_rules cfg s0 row).total_units) := by
  unfold day_rules
  dsimp only
  split
  · intro r hr
    rw [record_history_portfolio_history] at hr
    rcases List.mem_append.mp hr with hr | hr
    · left
      obtain ⟨_, _, _, _, hhist⟩ := sip_exec_shape cfg
        { s0 with prev_month := some row.date.m } row
      rwa [hhist] at hr
    · right
      rw [List.mem_singleton] at hr
      subst hr
      exact ⟨by rw [record_history_pap], by rw [record_history_total_units]⟩
  · intro r hr
    exact day_tail_hist_mem cfg { s0 with prev_month := some row.date.m } row r hr

theorem step_hist_mem (cfg : Config) (s : PKPState) (i : ℕ) (row : Row) :
    ∀ r ∈ (step cfg s i row).portfolio_history,
      r ∈ s.portfolio_history ∨
      (r.pap = (step cfg s i row).pap ∧
       r.units = (step cfg s i row).total_units) := by
  unfold step
  intro r hr
  rcases day_rules_hist_mem cfg (if i = 0 then lumpsum_exec cfg s row else s) row r hr
    with h | h
  · left
    by_cases hi : i = 0
    · rw [if_pos hi] at h
      obtain ⟨_, _, _, _, hhist⟩ := lumpsum_exec_shape cfg s row
      rwa [hhist] at h
    · rwa [if_neg hi] at h
  · right
    exact h

theorem runFrom_append (cfg : Config) :
    ∀ (l : List Row) (x : Row) (i : ℕ) (s : PKPState),
      runFrom cfg i s (l ++ [x]) = step cfg (runFrom cfg i s l) (i + l.length) x
  | [], x, i, s => by
    show step cfg s i x = step cfg s (i + 0) x
    rw [Nat.add_zero]
  | row :: rest, x, i, s => by
    show runFrom cfg (i + 1) (step cfg s i row) (rest ++ [x])
      = step cfg (runFrom cfg (i + 1) (step cfg s i row) rest) (i + (rest.length + 1)) x
    rw [runFrom_append cfg rest x (i + 1) (step cfg s i row)]
    have harith : (i + 1) + rest.length = i + (rest.length + 1) := by omega
    rw [harith]

theorem run_append (cfg : Config) (l : List Row) (x : Row) :
    run cfg (l ++ [x]) = step cfg (run cfg l) l.length x := by
  show runFrom cfg 0 (initState cfg) (l ++ [x]) = _
  rw [runFrom_append cfg l x 0 (initState cfg), Nat.zero_add]
  rfl

/-- Every history record's `pap` and `units` are snapshots of the state after
some prefix of the input. -/
theorem hist_corresponds (cfg : Config) (data : List Row) :
    ∀ r ∈ (run cfg data).portfolio_history,
      ∃ n, n ≤ data.length ∧
        r.pap = (run cfg (data.take n)).pap ∧
        r.units = (run cfg (data.take n)).total_units := by
  induction data using List.reverseRecOn with
  | nil =>
    intro r hr
    exact absurd hr (by simp [run, runFrom, initState])
  | append_singleton l x ih =>
    intro r hr
    rw [run_append] at hr
    rcases step_hist_mem cfg (run cfg l) l.length x r hr with h | h
    · obtain ⟨n, hn, hpap, hunits⟩ := ih r h
      have htake : (l ++ [x]).take n = l.take n := List.take_append_of_le_length hn
      refine ⟨n, ?_, ?_, ?_⟩
      · simp only [List.length_append, List.length_singleton]
        omega
      · rw [htake]
        exact hpap
      · rw [htake]
        exact hunits
    · have htake : (l ++ [x]).take (l.length + 1) = l ++ [x] := by
        apply List.take_of_length_le
        simp
      refine ⟨l.length + 1, by simp, ?_, ?_⟩
      · rw [htake, run_append]
        exact h.1
      · rw [htake, run_append]
        exact h.2

/-- C6: every HistoryRecord's `pap` and `units` fields are the `pap` and
`total_units` of the state after some prefix of the run, and that state
satisfies the bookkeeping identity: `pap = bia / total_units` when
`total_units > 0` and `pap = 0` when `total_units = 0` (in particular after a
sell that disposes of all held units). -/
theorem C6_pap_invariant (cfg : Config) (data : List Row)
    (hpos : ∀ r ∈ data, 0 < r.close) :
    ∀ r ∈ (run cfg data).portfolio_history,
      ∃ n, n ≤ data.length ∧
        r.pap = (run cfg (data.take n)).pap ∧
        r.units = (run cfg (data.take n)).total_units ∧
        (0 < (run cfg (data.take n)).total_units →
          (run cfg (data.take n)).pap
            = (run cfg (data.take n)).bia
              / ((run cfg (data.take n)).total_units : ℚ)) ∧
        ((run cfg (data.take n)).total_units = 0 →
          (run cfg (data.take n)).pap = 0) := by
  intro r hr
  obtain ⟨n, hn, h1, h2⟩ := hist_corresponds cfg data r hr
  have hInv := inv_run cfg (data.take n)
    (fun x hx => hpos x (List.take_subset n data hx))
  exact ⟨n, hn, h1, h2, hInv.pap_eq, hInv.pap_zero⟩

unseal Rat.inv Rat.mul Rat.add Rat.sub in
/-- Witness for C6 at the first record of the concrete run. -/
theorem C6_witness :
    ∃ n, n ≤ (dataA.take 1).length ∧
      ({ date := ⟨2020, 1, 15⟩, units := 1000, pap := 100, price := 100,
         portfolio_value := 100000, profit_reserve := 0, total_equity := 100000,
         actual_invested := 100000 } : HistoryRecord).pap
        = (run cfgA ((dataA.take 1).take n)).pap ∧
      ({ date := ⟨2020, 1, 15⟩, units := 1000, pap := 100, price := 100,
         portfolio_value := 100000, profit_reserve := 0, total_equity := 100000,
         actual_invested := 100000 } : HistoryRecord).units
        = (run cfgA ((dataA.take 1).take n)).total_units ∧
      (0 < (run cfgA ((dataA.take 1).take n)).total_units →
        (run cfgA ((dataA.take 1).take n)).pap
          = (run cfgA ((dataA.take 1).take n)).bia
            / ((run cfgA ((dataA.take 1).take n)).total_units : ℚ)) ∧
      ((run cfgA ((dataA.take 1).take n)).total_units = 0 →
        (run cfgA ((dataA.take 1).take n)).pap = 0) :=
  C6_pap_invariant cfgA (dataA.take 1) (by decide) _ (by decide)


/-! ### C8: dip-stage transitions -/

theorem day_tail_stage_tx (cfg : Config) (s1 : PKPState) (row : Row) :
    (day_tail cfg s1 row).transactions
        = s1.transactions
          ++ (day_tail cfg s1 row).transactions.drop s1.transactions.length ∧
    ((∃ t ∈ (day_tail cfg s1 row).transactions.drop s1.transactions.length,
        t.type.isBid = true) →
      (day_tail cfg s1 row).current_bid_stage = s1.current_bid_stage + 1 ∧
      s1.current_bid_stage < 10) ∧
    ((∃ t ∈ (day_tail cfg s1 row).transactions.drop s1.transactions.length,
        t.type = TxType.SELL) →
      (day_tail cfg s1 row).current_bid_stage = 0) ∧
    ((∀ t ∈ (day_tail cfg s1 row).transactions.drop s1.transactions.length,
        t.type.isBid = false ∧ t.type ≠ TxType.SELL) →
      (day_tail cfg s1 row).current_bid_stage = s1.current_bid_stage) := by
  unfold day_tail
  cases hb : bid_exec cfg s1 row with
  | some s2 =>
    obtain ⟨htx, htypes, hne, hstage, hst, _, _, _, _⟩ := bid_exec_shape hb
    refine ⟨?_, ?_, ?_, ?_⟩
    · rw [record_history_transactions]
      exact htx
    · intro _
      rw [record_history_current_bid_stage]
      exact ⟨hstage, hst⟩
    · rintro ⟨t, ht, hsell⟩
      rw [record_history_transactions] at ht
      have hbid := htypes t ht
      rw [hsell] at hbid
      exact absurd hbid (by simp [TxType.isBid])
    · intro hall
      obtain ⟨t, ht⟩ := List.exists_mem_of_ne_nil _ hne
      have h1 := (hall t (by rwa [record_history_transactions])).1
      have h2 := htypes t ht
      rw [h1] at h2
      exact absurd h2 (by simp)
  | none =>
    obtain ⟨htx, htypes, hstage0, hstageN, _, _, _, _⟩ := sell_exec_shape cfg s1 row
    refine ⟨?_, ?_, ?_, ?_⟩
    · rw [record_history_transactions]
      exact htx
    · rintro ⟨t, ht, hbid⟩
      rw [record_history_transactions] at ht
      have hsell := htypes t ht
      rw [hsell] at hbid
      exact absurd hbid (by simp [TxType.isBid])
    · rintro ⟨t, ht, _⟩
      rw [record_history_transactions] at ht
      rw [record_history_current_bid_stage]
      exact hstageN (List.ne_nil_of_mem ht)
    · intro hall
      rw [record_history_current_bid_stage]
      rcases eq_or_ne ((sell_exec cfg s1 row).transactions.drop s1.transactions.length) []
        with hd | hd
      · exact hstage0 hd
      · obtain ⟨t, ht⟩ := List.exists_mem_of_ne_nil _ hd
        have h1 := (hall t (by rwa [record_history_transactions])).2
        exact absurd (htypes t ht) h1

theorem day_rules_stage_tx (cfg : Config) (s0 : PKPState) (row : Row) :
    (day_rules cfg s0 row).transactions
        = s0.transactions
          ++ (day_rules cfg s0 row).transactions.drop s0.transactions.length ∧
    ((∃ t ∈ (day_rules cfg s0 row).transactions.drop s0.transactions.length,
        t.type.isBid = true) →
      (day_rules cfg s0 row).current_bid_stage = s0.current_bid_stage + 1 ∧
      s0.current_bid_stage < 10) ∧
    ((∃ t ∈ (day_rules cfg s0 row).transactions.drop s0.transactions.length,
        t.type = TxType.SELL) →
      (day_rules cfg s0 row).current_bid_stage = 0) ∧
    ((∀ t ∈ (day_rules cfg s0 row).transactions.drop s0.transactions.length,
        t.type.isBid = false ∧ t.type ≠ TxType.SELL) →
      (day_rules cfg s0 row).current_bid_stage = s0.current_bid_stage) := by
  unfold day_rules
  dsimp only
  split
  · obtain ⟨htx, htypes, hstage, _, _⟩ := sip_exec_shape cfg
      { s0 with prev_month := some row.date.m } row
    refine ⟨?_, ?_, ?_, ?_⟩
    · rw [record_history_transactions]
      exact htx
    · rintro ⟨t, ht, hbid⟩
      rw [record_history_transactions] at ht
      have hsip := htypes t ht
      rw [hsip] at hbid
      exact absurd hbid (by simp [TxType.isBid])
    · rintro ⟨t, ht, hsell⟩
      rw [record_history_transactions] at ht
      have hsip := htypes t ht
      rw [hsip] at hsell
      exact absurd hsell (by simp)
    · intro _
      rw [record_history_current_bid_stage]
      exact hstage
  · exact day_tail_stage_tx cfg { s0 with prev_month := some row.date.m } row

/-- C8: throughout every run on positive prices `current_bid_stage` stays in
[0, 10] (it is a natural number, bounded above by 10); and per processed day,
relative to the newly appended transactions: a dip-buy increments the stage by
exactly 1 and only happens below stage 10, a SELL resets it to exactly 0, and
a day appending neither leaves it unchanged. -/
theorem C8_stage_transitions :
    (∀ (cfg : Config) (data : List Row), (∀ r ∈ data, 0 < r.close) →
      ∀ n : ℕ, (run cfg (data.take n)).current_bid_stage ≤ 10) ∧
    (∀ (cfg : Config) (s : PKPState) (i : ℕ) (row : Row),
      (step cfg s i row).transactions
          = s.transactions
            ++ (step cfg s i row).transactions.drop s.transactions.length ∧
      ((∃ t ∈ (step cfg s i row).transactions.drop s.transactions.length,
          t.type.isBid = true) →
        (step cfg s i row).current_bid_stage = s.current_bid_stage + 1 ∧
        s.current_bid_stage < 10) ∧
      ((∃ t ∈ (step cfg s i row).transactions.drop s.transactions.length,
          t.type = TxType.SELL) →
        (step cfg s i row).current_bid_stage = 0) ∧
      ((∀ t ∈ (step cfg s i row).transactions.drop s.transactions.length,
          t.type.isBid = false ∧ t.type ≠ TxType.SELL) →
        (step cfg s i row).current_bid_stage = s.current_bid_stage)) := by
  constructor
  · intro cfg data hpos n
    exact (inv_run cfg (data.take n)
      (fun x hx => hpos x (List.take_subset n data hx))).stage_le
  · intro cfg s i row
    unfold step
    by_cases hi : i = 0
    · rw [if_pos hi]
      obtain ⟨hdtx, hd1, hd2, hd3⟩ :=
        day_rules_stage_tx cfg (lumpsum_exec cfg s row) row
      obtain ⟨hltx, hltypes, hlstage, _, _⟩ := lumpsum_exec_shape cfg s row
      set l0 := (lumpsum_exec cfg s row).transactions.drop s.transactions.length
        with hl0def
      set ld := (day_rules cfg (lumpsum_exec cfg s row) row).transactions.drop
        (lumpsum_exec cfg s row).transactions.length with hlddef
      have hcomb : (day_rules cfg (lumpsum_exec cfg s row) row).transactions
          = s.transactions ++ (l0 ++ ld) := by
        rw [hdtx, hltx, List.append_assoc]
      have hnew : (day_rules cfg (lumpsum_exec cfg s row) row).transactions.drop
            s.transactions.length = l0 ++ ld := by
        rw [hcomb, List.drop_left]
      refine ⟨?_, ?_, ?_, ?_⟩
      · rw [hnew, hcomb]
      · rintro ⟨t, ht, hbid⟩
        rw [hnew] at ht
        rcases List.mem_append.mp ht with ht | ht
        · have := hltypes t ht
          rw [this] at hbid
          exact absurd hbid (by simp [TxType.isBid])
        · have := hd1 ⟨t, ht, hbid⟩
          rw [hlstage] at this
          exact this
      · rintro ⟨t, ht, hsell⟩
        rw [hnew] at ht
        rcases List.mem_append.mp ht with ht | ht
        · have := hltypes t ht
          rw [this] at hsell
          exact absurd hsell (by simp)
        · exact hd2 ⟨t, ht, hsell⟩
      · intro hall
        have hsub : ∀ t, t ∈ ld →
            t ∈ (day_rules cfg (lumpsum_exec cfg s row) row).transactions.drop
              s.transactions.length := by
          intro t ht
          rw [hnew]
          exact List.mem_append.mpr (Or.inr ht)
        have h3 := hd3 (fun t ht => hall t (hsub t ht))
        rw [h3, hlstage]
    · rw [if_neg hi]
      exact day_rules_stage_tx cfg s row

unseal Rat.inv Rat.mul Rat.add Rat.sub in
/-- Witness for C8: the stage bound at a concrete run prefix. -/
theorem C8_witness : (run cfgA (dataA.take 3)).current_bid_stage ≤ 10 :=
  C8_stage_transitions.1 cfgA dataA (by decide) 3


/-! ### C10: benchmark shadow portfolio mirrors the lumpsum -/

theorem head?_append_some {α : Type} {l1 l2 : List α} {a : α}
    (h : l1.head? = some a) : (l1 ++ l2).head? = some a := by
  cases l1 with
  | nil => exact absurd h (by simp)
  | cons x xs =>
    rw [List.head?_cons] at h
    rw [List.cons_append, List.head?_cons]
    exact h

theorem day_tail_bench (cfg : Config) (s1 : PKPState) (row : Row) :
    (day_tail cfg s1 row).benchmark_units = s1.benchmark_units ∧
    (day_tail cfg s1 row).benchmark_invested = s1.benchmark_invested ∧
    ∀ t0, s1.transactions.head? = some t0 →
      (day_tail cfg s1 row).transactions.head? = some t0 := by
  unfold day_tail
  cases hb : bid_exec cfg s1 row with
  | some s2 =>
    obtain ⟨htx, _, _, _, _, hbu, hbi, _, _⟩ := bid_exec_shape hb
    refine ⟨?_, ?_, ?_⟩
    · rw [record_history_benchmark_units]
      exact hbu
    · rw [record_history_benchmark_invested]
      exact hbi
    · intro t0 ht0
      rw [record_history_transactions, htx]
      exact head?_append_some ht0
  | none =>
    obtain ⟨htx, _, _, _, hbu, hbi, _, _⟩ := sell_exec_shape cfg s1 row
    refine ⟨?_, ?_, ?_⟩
    · rw [record_history_benchmark_units]
      exact hbu
    · rw [record_history_benchmark_invested]
      exact hbi
    · intro t0 ht0
      rw [record_history_transactions, htx]
      exact head?_append_some ht0

theorem lumpsum_exec_init_facts (cfg : Config) (row : Row)
    (hl : 0 < cfg.initial_lumpsum)
    (hu : 0 < pyInt (cfg.initial_lumpsum / row.close)) :
    (lumpsum_exec cfg (initState cfg) row).benchmark_units
        = pyInt (cfg.initial_lumpsum / row.close) ∧
    (lumpsum_exec cfg (initState cfg) row).benchmark_invested
        = (pyInt (cfg.initial_lumpsum / row.close) : ℚ) * row.close ∧
    ∃ t, (lumpsum_exec cfg (initState cfg) row).transactions = [t] ∧
      t.type = TxType.LUMPSUM ∧
      t.units = pyInt (cfg.initial_lumpsum / row.close) ∧
      t.amount = (pyInt (cfg.initial_lumpsum / row.close) : ℚ) * row.close := by
  unfold lumpsum_exec
  dsimp only
  rw [if_pos hl, if_pos hu]
  refine ⟨?_, ?_, ?_⟩
  · simp [initState]
  · simp [initState]
  · refine ⟨⟨row.date, TxType.LUMPSUM, pyInt (cfg.initial_lumpsum / row.close),
      row.close,
      (pyInt (cfg.initial_lumpsum / row.close) : ℚ) * row.close,
      pyInt (cfg.initial_lumpsum / row.close),
      (pyInt (cfg.initial_lumpsum / row.close) : ℚ) * row.close
        / (pyInt (cfg.initial_lumpsum / row.close) : ℚ),
      (pyInt (cfg.initial_lumpsum / row.close) : ℚ) * row.close,
      (pyInt (cfg.initial_lumpsum / row.close) : ℚ) * row.close,
      (pyInt (cfg.initial_lumpsum / row.close) : ℚ) * row.close,
      pnl_pct_calc ((pyInt (cfg.initial_lumpsum / row.close) : ℚ) * row.close)
        ((pyInt (cfg.initial_lumpsum / row.close) : ℚ) * row.close),
      0⟩, by simp [initState], rfl, rfl, rfl⟩

/-- C10: on a run whose configuration has a positive lumpsum and whose first
price admits at least one unit, after the first processed record the benchmark
shadow portfolio holds exactly the lumpsum's unit count and cost (the first
record is never a contribution day, so no other benchmark purchase occurs),
and those equal the units and amount of the recorded LUMPSUM transaction. -/
theorem C10_benchmark_lumpsum (cfg : Config) (data : List Row) (row : Row)
    (hhead : data.head? = some row)
    (hl : 0 < cfg.initial_lumpsum)
    (hu : 0 < pyInt (cfg.initial_lumpsum / row.close)) :
    (run cfg (data.take 1)).benchmark_units
        = pyInt (cfg.initial_lumpsum / row.close) ∧
    (run cfg (data.take 1)).benchmark_invested
        = (pyInt (cfg.initial_lumpsum / row.close) : ℚ) * row.close ∧
    ∃ t, (run cfg (data.take 1)).transactions.head? = some t ∧
      t.type = TxType.LUMPSUM ∧
      t.units = pyInt (cfg.initial_lumpsum / row.close) ∧
      t.amount = (pyInt (cfg.initial_lumpsum / row.close) : ℚ) * row.close := by
  cases data with
  | nil => exact absurd hhead (by simp)
  | cons r rest =>
    rw [List.head?_cons] at hhead
    have hr : r = row := Option.some.inj hhead
    subst hr
    have hrun : run cfg ((r :: rest).take 1)
        = day_rules cfg (lumpsum_exec cfg (initState cfg) r) r := by
      show step cfg (initState cfg) 0 r = _
      unfold step
      rw [if_pos rfl]
    rw [hrun]
    obtain ⟨hLbu, hLbi, t0, hLtx, hty, hun, ham⟩ :=
      lumpsum_exec_init_facts cfg r hl hu
    have hprev : (lumpsum_exec cfg (initState cfg) r).prev_month = none := by
      obtain ⟨_, _, _, hprev, _⟩ := lumpsum_exec_shape cfg (initState cfg) r
      rw [hprev]
      rfl
    have hD : day_rules cfg (lumpsum_exec cfg (initState cfg) r) r
        = day_tail cfg
            { lumpsum_exec cfg (initState cfg) r with prev_month := some r.date.m }
            r := by
      unfold day_rules
      dsimp only
      rw [hprev]
      simp only [isSipDay]
      rfl
    rw [hD]
    obtain ⟨hTbu, hTbi, hThead⟩ := day_tail_bench cfg
      { lumpsum_exec cfg (initState cfg) r with prev_month := some r.date.m } r
    refine ⟨?_, ?_, ?_⟩
    · rw [hTbu]
      exact hLbu
    · rw [hTbi]
      exact hLbi
    · refine ⟨t0, ?_, hty, hun, ham⟩
      apply hThead
      show (lumpsum_exec cfg (initState cfg) r).transactions.head? = some t0
      rw [hLtx]
      rfl

unseal Rat.inv Rat.mul Rat.add Rat.sub in
/-- Witness for C10 at the concrete run: the lumpsum buys 1000 units for
100000 and the benchmark mirrors it. -/
theorem C10_witness :
    (run cfgA (dataA.take 1)).benchmark_units
        = pyInt (cfgA.initial_lumpsum / (⟨⟨2020, 1, 15⟩, 100⟩ : Row).close) ∧
    (run cfgA (dataA.take 1)).benchmark_invested
        = (pyInt (cfgA.initial_lumpsum / (⟨⟨2020, 1, 15⟩, 100⟩ : Row).close) : ℚ)
            * (⟨⟨2020, 1, 15⟩, 100⟩ : Row).close ∧
    ∃ t, (run cfgA (dataA.take 1)).transactions.head? = some t ∧
      t.type = TxType.LUMPSUM ∧
      t.units = pyInt (cfgA.initial_lumpsum / (⟨⟨2020, 1, 15⟩, 100⟩ : Row).close) ∧
      t.amount
        = (pyInt (cfgA.initial_lumpsum / (⟨⟨2020, 1, 15⟩, 100⟩ : Row).close) : ℚ)
            * (⟨⟨2020, 1, 15⟩, 100⟩ : Row).close :=
  C10_benchmark_lumpsum cfgA dataA ⟨⟨2020, 1, 15⟩, 100⟩ (by decide) (by decide)
    (by decide)

end PKP
